import Mathlib

/-!
Verification development for the question definition & data-binding engine of
digitalmarketplace-content-loader.

The repository ships its test suite (src/tests/test_questions.py) but the
`dmcontent` package itself (questions.py, utils.py) is not present in the
source tree, so every operation below is modelled from the natural-language
specification (spec.md) and cross-checked, via `example` lemmas, against the
concrete assertions of the shipped test suite, which exercises the real code.
-/

namespace DMContent

/-- JSON-like values exchanged between submitted form data and structured
answer data: strings, booleans, null, lists and string-keyed objects. -/
inductive Value where
  | str : String → Value
  | bool : Bool → Value
  | null : Value
  | list : List Value → Value
  | obj : List (String × Value) → Value

/-- First-match association-list lookup: the dictionary semantics used for
both submitted form data and structured answer data. -/
def alookup : List (String × Value) → String → Option Value
  | [], _ => none
  | (k, v) :: rest, key => if k = key then some v else alookup rest key

/-- Dictionary assignment: replace the first binding of `key` in place,
or append a new binding at the end (Python `dict.__setitem__`). -/
def setKey : List (String × Value) → String → Value → List (String × Value)
  | [], key, v => [(key, v)]
  | (k, w) :: rest, key, v =>
    if k = key then (key, v) :: rest else (k, w) :: setKey rest key v

/-- All values bound to `key`, in submission order (multi-valued map
semantics of the form-submission layer, `MultiDict.getlist`). -/
def getAll (sub : List (String × Value)) (key : String) : List Value :=
  (sub.filter (fun kv => kv.1 = key)).map Prod.snd

/-- Whether the submitted data carries any binding for `key`. -/
def hasKey (sub : List (String × Value)) (key : String) : Bool :=
  (alookup sub key).isSome

/-- The closed set of question variants. -/
inductive QType where
  | text
  | boolean
  | radios
  | number
  | date
  | checkboxes
  | checkbox_tree
deriving DecidableEq

/-- Variants whose submission is read with multi-valued (`getlist`)
semantics and which produce an explicit `None` placeholder when absent. -/
def QType.isMultiValued : QType → Bool
  | .checkboxes => true
  | .checkbox_tree => true
  | _ => false

/-- One part of a templated text value: literal text or an embedded
expression referencing a context variable. -/
inductive TemplatePart where
  | lit : String → TemplatePart
  | var : String → TemplatePart
deriving DecidableEq

/-- A leaf question nested inside a multiquestion or dynamic list.
`followup` maps a dependent question id to the list of trigger values of
this (lead) question; `labelTemplate` is the templated label used by the
dynamic-list error resolver. -/
structure ChildDef where
  id : String
  qtype : QType
  optional : Bool := false
  assurance : Bool := false
  followup : List (String × List Value) := []
  labelTemplate : List TemplatePart := []

/-- Modelled from the spec: the per-type raw data binding of a leaf question
(the missing `Question._get_data`): multi-valued types read every submitted
value for the id and fall back to an explicit null placeholder when the key
is absent; every other type reads the single submitted value and contributes
nothing when the key is absent (§4.2 table, unknown keys ignored). -/
def childRawOpt (c : ChildDef) (sub : List (String × Value)) : Option Value :=
  if c.qtype.isMultiValued then
    if hasKey sub c.id then some (Value.list (getAll sub c.id)) else some Value.null
  else
    alookup sub c.id

/-- The key carrying the supplementary assurance annotation of a field. -/
def assuranceKey (id : String) : String := id ++ "--assurance"

/-- Modelled from the spec: assurance wrapping (§4.2, the missing
`Question.get_data` wrapper): when `assuranceApproach` is set the primary
value and the `{id}--assurance` value are combined into an object whose
`value` key is present only for a non-null primary value and whose
`assurance` key is present only when the assurance key was submitted. -/
def childDataOpt (c : ChildDef) (sub : List (String × Value)) : Option Value :=
  if c.assurance then
    let inner : List (String × Value) :=
      match childRawOpt c sub with
      | some Value.null => []
      | some v => [("value", v)]
      | none => []
    let inner2 : List (String × Value) :=
      match alookup sub (assuranceKey c.id) with
      | some a => inner ++ [("assurance", a)]
      | none => inner
    some (Value.obj inner2)
  else childRawOpt c sub

/-- The answer-data contribution of one leaf question: a single binding for
its id, or nothing at all. -/
def childGetData (c : ChildDef) (sub : List (String × Value)) : List (String × Value) :=
  match childDataOpt c sub with
  | some v => [(c.id, v)]
  | none => []

/-- Fold a list of bindings into an answer-data dictionary
(Python `dict.update`). -/
def updAll (acc : List (String × Value)) (kvs : List (String × Value)) :
    List (String × Value) :=
  kvs.foldl (fun a kv => setKey a kv.1 kv.2) acc

/-- Modelled from the spec: the union of the children's answer data
(§4.2 multiquestion row), before followup resolution. -/
def baseData (cs : List ChildDef) (sub : List (String × Value)) :
    List (String × Value) :=
  cs.foldl (fun a c => updAll a (childGetData c sub)) []

/-- View a bound value as the list of its elements: a checkboxes answer
contributes each selected value, any other answer contributes itself. -/
def asList : Value → List Value
  | .list vs => vs
  | v => [v]

/-- Equality test on the primitive values that occur in submitted form data
and followup trigger lists (strings, booleans, null); composite values never
compare equal, mirroring the fact that the source only ever compares
form-level primitives. -/
def Value.primEq : Value → Value → Bool
  | .str a, .str b => a = b
  | .bool a, .bool b => a = b
  | .null, .null => true
  | _, _ => false

/-- Whether a bound lead value satisfies a followup trigger list: some
element of the (listified) value is a trigger value. -/
def triggeredVal (v : Value) (ts : List Value) : Bool :=
  (asList v).any (fun x => ts.any (fun t => Value.primEq x t))

/-- One step of followup resolution: consult the lead's current bound value
and, when it does not meet the trigger list of this followup entry, clear
the dependent field to null; a lead with no bound value changes nothing. -/
def followupStep (cid : String) (acc2 : List (String × Value))
    (ft : String × List Value) : List (String × Value) :=
  match alookup acc2 cid with
  | none => acc2
  | some v => if triggeredVal v ft.2 then acc2 else setKey acc2 ft.1 Value.null

/-- Modelled from the spec: followup nulling (§4.2): walking the children in
order, each declared dependent field of a lead whose bound value does not
meet the trigger list is explicitly cleared to null; a lead with no bound
value leaves its dependents untouched. -/
def applyFollowups (cs : List ChildDef) (d : List (String × Value)) :
    List (String × Value) :=
  cs.foldl (fun acc c => c.followup.foldl (followupStep c.id) acc) d

/-- Modelled from the spec: `Multiquestion.get_data` (§4.2, §4.3): the union
of the children's answer data with followup nulling applied. -/
def mqGetData (cs : List ChildDef) (sub : List (String × Value)) :
    List (String × Value) :=
  applyFollowups cs (baseData cs sub)

/-- The flat submission key of child field `cid` at repeat index `i`. -/
def keyAt (cid : String) (i : Nat) : String := cid ++ "-" ++ toString i

/-- The template child re-addressed to one repeat index: its id and its
followup targets gain the `-{index}` suffix. -/
def reindexChild (c : ChildDef) (i : Nat) : ChildDef :=
  { c with id := keyAt c.id i,
           followup := c.followup.map (fun ft => (keyAt ft.1 i, ft.2)) }

/-- Modelled from the spec: the per-item child sets a dynamic list
materializes when filtered (§4.4 step 3), one full copy of the template
children per context item, in index order. -/
def expandChildren (cs : List ChildDef) (n : Nat) : List ChildDef :=
  (List.range n).flatMap (fun i => cs.map (fun c => reindexChild c i))

/-- A dynamic-list question after filtering: the repeat-source sequence
(`items`, obtained from the `dynamic_field` context path) is known, so the
repeat count is `items.length`. -/
structure DynamicList where
  id : String
  questionLabel : String
  children : List ChildDef
  items : List String

/-- A bound value that counts as present for the per-index answer mappings:
not null and not the empty string. -/
def keepVal : Value → Bool
  | .null => false
  | .str s => !(s = "")
  | _ => true

/-- Modelled from the spec: `DynamicList.get_data` (§4.2 dynamic_list row,
§4.3): bind the expanded per-index children as a multiquestion, then group
the `{child_id}-{index}` bindings into one mapping per index, dropping
null and empty-string values; when no child key was recognized at all the
list is empty. -/
def DynamicList.get_data (q : DynamicList) (sub : List (String × Value)) :
    List (String × Value) :=
  let qd := mqGetData (expandChildren q.children q.items.length) sub
  if qd.isEmpty then [(q.id, Value.list [])]
  else
    [(q.id, Value.list ((List.range q.items.length).map (fun i =>
      Value.obj (q.children.filterMap (fun c =>
        match alookup qd (keyAt c.id i) with
        | some v => if keepVal v then some (c.id, v) else none
        | none => none)))))]

/-- Pair each element with its position, starting at `j`. -/
def enumIdx : Nat → List Value → List (Nat × Value)
  | _, [] => []
  | j, m :: rest => (j, m) :: enumIdx (j + 1) rest

/-- Re-address the fields of one per-index mapping to their flat
`{child_id}-{index}` submission keys. -/
def shiftEntries (entries : List (String × Value)) (i : Nat) :
    List (String × Value) :=
  entries.map (fun e => (keyAt e.1 i, e.2))

/-- The flat bindings one indexed stored mapping contributes; a non-mapping
element contributes nothing. -/
def blockOf (im : Nat × Value) : List (String × Value) :=
  match im.2 with
  | Value.obj entries => shiftEntries entries im.1
  | _ => []

/-- Modelled from the spec: `DynamicList.unformat_data` (§4.3): the inverse
of the dynamic-list encoding: each field of the i-th stored mapping becomes
a flat `{child_id}-{index}` binding, and every non-dynamic key passes
through unchanged. -/
def DynamicList.unformat_data (q : DynamicList) (stored : List (String × Value)) :
    List (String × Value) :=
  stored.flatMap (fun kv =>
    if kv.1 = q.id then
      match kv.2 with
      | Value.list maps => (enumIdx 0 maps).flatMap blockOf
      | _ => [kv]
    else [kv])

section ModelValidation

/-! The model is cross-checked against the concrete assertions of the
repository's own test suite (src/tests/test_questions.py). -/

/-- The multiquestion of `TestMultiquestion.test_nested_question_followup_get_data`. -/
def followupMq : List ChildDef :=
  [{ id := "lead", qtype := .boolean, followup := [("follow", [Value.bool true])] },
   { id := "follow", qtype := .text }]

example : mqGetData followupMq [("lead", Value.bool false)] =
    [("lead", Value.bool false), ("follow", Value.null)] := rfl

example : mqGetData followupMq [("lead", Value.bool true)] =
    [("lead", Value.bool true)] := rfl

example : mqGetData followupMq [("lead", Value.bool true), ("follow", Value.str "a")] =
    [("lead", Value.bool true), ("follow", Value.str "a")] := rfl

example : mqGetData followupMq [("lead", Value.bool false), ("follow", Value.str "a")] =
    [("lead", Value.bool false), ("follow", Value.null)] := rfl

/-- The multiquestion of `TestMultiquestion.test_nested_checkboxes_question_followup_get_data`. -/
def followupCheckboxesMq : List ChildDef :=
  [{ id := "lead", qtype := .checkboxes,
     followup := [("follow", [Value.str "yes", Value.str "maybe"])] },
   { id := "follow", qtype := .text }]

example : mqGetData followupCheckboxesMq
    [("lead", Value.str "no"), ("lead", Value.str "maybe not")] =
    [("lead", Value.list [Value.str "no", Value.str "maybe not"]), ("follow", Value.null)] := rfl

example : mqGetData followupCheckboxesMq
    [("lead", Value.str "yes"), ("lead", Value.str "maybe not")] =
    [("lead", Value.list [Value.str "yes", Value.str "maybe not"])] := rfl

example : mqGetData followupCheckboxesMq
    [("lead", Value.str "yes"), ("lead", Value.str "maybe not"), ("follow", Value.str "a")] =
    [("lead", Value.list [Value.str "yes", Value.str "maybe not"]), ("follow", Value.str "a")] := rfl

example : mqGetData followupCheckboxesMq
    [("lead", Value.str "no"), ("lead", Value.str "maybe not"), ("follow", Value.str "a")] =
    [("lead", Value.list [Value.str "no", Value.str "maybe not"]), ("follow", Value.null)] := rfl

/-- The `yesno` child of `TestDynamicListQuestion`. -/
def yesnoChild : ChildDef :=
  { id := "yesno", qtype := .boolean,
    followup := [("evidence", [Value.bool true])],
    labelTemplate := [.var "item", .lit "-yesno"] }

/-- The `evidence` child of `TestDynamicListQuestion`. -/
def evidenceChild : ChildDef :=
  { id := "evidence", qtype := .text,
    labelTemplate := [.var "item", .lit "-evidence"] }

/-- The dynamic list of `TestDynamicListQuestion`, filtered against the
default context (four items). -/
def testDynList : DynamicList :=
  { id := "example"
    questionLabel := "Dynamic list"
    children := [yesnoChild, evidenceChild]
    items := ["First Need", "Second Need", "Third Need", "Fourth need"] }

example : testDynList.get_data
    [("yesno-0", Value.bool true),
     ("evidence-0", Value.str "some evidence"),
     ("evidence-1", Value.str ""),
     ("yesno-2", Value.bool false),
     ("evidence-2", Value.str ""),
     ("yesno-3", Value.bool false),
     ("evidence-3", Value.str "should be removed")] =
    [("example", Value.list
      [Value.obj [("yesno", Value.bool true), ("evidence", Value.str "some evidence")],
       Value.obj [],
       Value.obj [("yesno", Value.bool false)],
       Value.obj [("yesno", Value.bool false)]])] := rfl

example : testDynList.get_data
    [("evidence-2", Value.str ""), ("evidence-1", Value.str ""),
     ("evidence-0", Value.str ""), ("evidence-3", Value.str "")] =
    [("example", Value.list [Value.obj [], Value.obj [], Value.obj [], Value.obj []])] := rfl

example : testDynList.get_data
    [("evidence-2", Value.str "some evidence"), ("evidence-1", Value.str ""),
     ("evidence-0", Value.str ""), ("yesno-2", Value.bool true),
     ("evidence-3", Value.str "")] =
    [("example", Value.list
      [Value.obj [], Value.obj [],
       Value.obj [("yesno", Value.bool true), ("evidence", Value.str "some evidence")],
       Value.obj []])] := rfl

example : testDynList.get_data [("other", Value.str "other value")] =
    [("example", Value.list [])] := rfl

example : testDynList.unformat_data
    [("example", Value.list
       [Value.obj [("yesno", Value.bool true), ("evidence", Value.str "my evidence")],
        Value.obj [],
        Value.obj [("yesno", Value.bool false)],
        Value.obj []]),
     ("nonDynamicKey", Value.str "data")] =
    [("yesno-0", Value.bool true), ("evidence-0", Value.str "my evidence"),
     ("yesno-2", Value.bool false), ("nonDynamicKey", Value.str "data")] := rfl

/-- The text question `example` of `TestText`, with `assuranceApproach` set. -/
def assuredText : ChildDef := { id := "example", qtype := .text, assurance := true }

example : childGetData assuredText
    [("example", Value.str "value1"), ("example--assurance", Value.str "assurance value")] =
    [("example", Value.obj [("value", Value.str "value1"),
                            ("assurance", Value.str "assurance value")])] := rfl

example : childGetData assuredText [("other", Value.str "value")] =
    [("example", Value.obj [])] := rfl

example : childGetData assuredText [("example--assurance", Value.str "assurance value")] =
    [("example", Value.obj [("assurance", Value.str "assurance value")])] := rfl

/-- The checkboxes question of `TestCheckboxes`, with `assuranceApproach` set. -/
def assuredCheckboxes : ChildDef := { id := "example", qtype := .checkboxes, assurance := true }

example : childGetData assuredCheckboxes
    [("example", Value.str "value1"), ("example", Value.str "value2"),
     ("example--assurance", Value.str "assurance value")] =
    [("example", Value.obj [("value", Value.list [Value.str "value1", Value.str "value2"]),
                            ("assurance", Value.str "assurance value")])] := rfl

example : childGetData assuredCheckboxes [("other", Value.str "value")] =
    [("example", Value.obj [])] := rfl

example : childGetData assuredCheckboxes [("example--assurance", Value.str "assurance value")] =
    [("example", Value.obj [("assurance", Value.str "assurance value")])] := rfl

/- Unknown-key behavior per variant (`test_get_data_unknown_key`). -/

example : childGetData { id := "example", qtype := .text }
    [("other", Value.str "other value")] = [] := rfl

example : childGetData { id := "example", qtype := .radios }
    [("other", Value.str "other value")] = [] := rfl

example : childGetData { id := "example", qtype := .checkboxes }
    [("other", Value.str "other value")] = [("example", Value.null)] := rfl

example : childGetData { id := "example", qtype := .checkbox_tree }
    [("other", Value.str "other value")] = [("example", Value.null)] := rfl

end ModelValidation

/-! ## Summary view -/

/-- Whether a stored answer value is the type's empty default
(`value in ('', [], None)`). -/
def Value.isEmptyData : Value → Bool
  | .null => true
  | .str s => s = ""
  | .list l => l.isEmpty
  | _ => false

/-- Modelled from the spec: a leaf question's `answer_required` under stored
answer data (§4.5): true iff the question is not optional and its stored
value is missing or empty. -/
def childAnswerRequired (stored : List (String × Value)) (c : ChildDef) : Bool :=
  !c.optional &&
    (match alookup stored c.id with
     | none => true
     | some v => v.isEmptyData)

/-- Whether the stored data takes the followup branch of lead `leadId` with
trigger list `ts`: the lead has a stored value meeting the trigger list. -/
def followupTaken (stored : List (String × Value)) (leadId : String)
    (ts : List Value) : Bool :=
  match alookup stored leadId with
  | none => false
  | some v => triggeredVal v ts

/-- The dependents a child excludes when its own followup branches are not
taken by the stored data. -/
def untakenTargets (stored : List (String × Value)) (c : ChildDef) : List String :=
  c.followup.filterMap (fun ft =>
    if followupTaken stored c.id ft.2 then none else some ft.1)

/-- Modelled from the spec: the followup-chain walk of a multiquestion's
`answer_required` (§4.5): children are visited in order with a growing
exclusion list; an excluded child is skipped (its own requirement is never
consulted) and passes the exclusion on to all its own followup targets,
while an active child contributes its own requirement and excludes the
targets of its untaken followup branches. -/
def mqWalk (stored : List (String × Value)) :
    List ChildDef → List String → Bool → List String × Bool
  | [], ex, acc => (ex, acc)
  | c :: rest, ex, acc =>
    if ex.contains c.id then
      mqWalk stored rest (ex ++ c.followup.map Prod.fst) acc
    else
      mqWalk stored rest (ex ++ untakenTargets stored c)
        (acc || childAnswerRequired stored c)

/-- A multiquestion node as consulted by the summary view. -/
structure MultiQ where
  id : String
  optional : Bool := false
  children : List ChildDef := []

/-- Modelled from the spec: `summary(stored).answer_required` of a
multiquestion (§4.5): false for an optional question, else true iff some
child that survives the followup-chain walk is itself required. -/
def MultiQ.answer_required (q : MultiQ) (stored : List (String × Value)) : Bool :=
  !q.optional && (mqWalk stored q.children [] false).2

/-- The exclusion list accumulated by the followup-chain walk over a child
prefix: the ids cleared by untaken (or transitively excluded) followups. -/
def exWalk (stored : List (String × Value)) :
    List ChildDef → List String → List String
  | [], ex => ex
  | c :: rest, ex =>
    if ex.contains c.id then exWalk stored rest (ex ++ c.followup.map Prod.fst)
    else exWalk stored rest (ex ++ untakenTargets stored c)

section ModelValidation2

/-- The multiquestion of `TestMultiquestionSummary.question_with_followups`. -/
def followupSummaryMq : MultiQ :=
  { id := "q1"
    children :=
      [{ id := "q2", qtype := .text },
       { id := "q3", qtype := .boolean,
         followup := [("q4", [Value.bool true]), ("q5", [Value.bool true])] },
       { id := "q4", qtype := .text, optional := true },
       { id := "q5", qtype := .radios,
         followup := [("q6", [Value.str "one"]), ("q7", [Value.str "one"])] },
       { id := "q6", qtype := .text },
       { id := "q7", qtype := .text, optional := true }] }

example : followupSummaryMq.answer_required [("q2", Value.str "blah")] = true := rfl

example : followupSummaryMq.answer_required
    [("q2", Value.str "blah"), ("q3", Value.bool true)] = true := rfl

example : followupSummaryMq.answer_required
    [("q2", Value.str "blah"), ("q3", Value.bool false)] = false := rfl

example : followupSummaryMq.answer_required
    [("q2", Value.str "blah"), ("q3", Value.bool true), ("q5", Value.str "one")] = true := rfl

example : followupSummaryMq.answer_required
    [("q2", Value.str "blah"), ("q3", Value.bool true), ("q5", Value.str "two")] = false := rfl

example : followupSummaryMq.answer_required
    [("q2", Value.str "blah"), ("q3", Value.bool true), ("q5", Value.str "one"),
     ("q6", Value.str "blah")] = false := rfl

end ModelValidation2

/-! ## Context, template fields and the context filter -/

/-- The error taxonomy of §7: the template sequencing error, the context
lookup error and the malformed-submission value error. -/
inductive ContentError where
  | contentTemplateError
  | keyError
  | valueError
deriving DecidableEq

/-- A context value: a string, a string sequence (repeat sources for
dynamic lists) or a nested mapping for dotted-path lookups. -/
inductive CtxVal where
  | str : String → CtxVal
  | strList : List String → CtxVal
  | map : List (String × CtxVal) → CtxVal

/-- A caller-supplied context mapping. -/
def Context := List (String × CtxVal)

/-- Top-level context lookup. -/
def ctxGet : List (String × CtxVal) → String → Option CtxVal
  | [], _ => none
  | (k, v) :: rest, key => if k = key then some v else ctxGet rest key

/-- Dotted-path context lookup; a path is already split at the dots
(`"context.field"` is `["context", "field"]`). -/
def ctxLookupPath : List (String × CtxVal) → List String → Option CtxVal
  | _, [] => none
  | m, [k] => ctxGet m k
  | m, k :: rest =>
    match ctxGet m k with
    | some (.map m2) => ctxLookupPath m2 rest
    | _ => none

/-- Render a template part list against a context: literals pass through,
each embedded expression is replaced by the string value of its context
variable; a variable missing from the context is a context lookup error
(propagated, no default substitution). -/
def renderParts (ctx : List (String × CtxVal)) :
    List TemplatePart → Except ContentError String
  | [] => .ok ""
  | .lit s :: rest =>
    match renderParts ctx rest with
    | .ok t => .ok (s ++ t)
    | .error e => .error e
  | .var n :: rest =>
    match ctxGet ctx n with
    | some (.str s) =>
      match renderParts ctx rest with
      | .ok t => .ok (s ++ t)
      | .error e => .error e
    | _ => .error .keyError

/-- Whether a template source contains any embedded expression. -/
def hasExpr (parts : List TemplatePart) : Bool :=
  parts.any (fun p => match p with | .var _ => true | .lit _ => false)

/-- The unrendered source text of a template part list, with embedded
expressions spelled back in their delimiters. -/
def sourceString (parts : List TemplatePart) : String :=
  parts.foldl (fun s p =>
    s ++ (match p with
          | .lit t => t
          | .var n => "\x7b\x7b " ++ n ++ " \x7d\x7d")) ""

/-- Modelled from the spec: a Template Field is an explicit two-state value
(§9): `unrendered` holds only the source; `rendered` additionally caches the
one-shot rendered output produced by the context filter. -/
inductive TemplateField where
  | unrendered : List TemplatePart → TemplateField
  | rendered : List TemplatePart → String → TemplateField

/-- The original source text, retrievable regardless of render state
(`TemplateField.source` / `get_source`). -/
def TemplateField.get_source : TemplateField → String
  | .unrendered ps => sourceString ps
  | .rendered ps _ => sourceString ps

/-- Modelled from the spec: accessing the displayed value of a field (§4.1):
a rendered field yields its cached output; an unrendered field yields its
literal text only when it contains no embedded expression, and otherwise
fails with the content template error. -/
def TemplateField.display : TemplateField → Except ContentError String
  | .unrendered ps =>
    if hasExpr ps then .error .contentTemplateError else .ok (sourceString ps)
  | .rendered _ out => .ok out

/-- Modelled from the spec: `render(context)` (§4.1): evaluate the embedded
expressions against the context and cache the output; rendering is one-shot,
so re-rendering an already rendered field is a sequencing error. -/
def TemplateField.render (ctx : List (String × CtxVal)) :
    TemplateField → Except ContentError TemplateField
  | .unrendered ps =>
    match renderParts ctx ps with
    | .ok out => .ok (.rendered ps out)
    | .error e => .error e
  | .rendered _ _ => .error .contentTemplateError

/-- One `depends` condition: the context path to inspect and the set of
values that allow the node. -/
structure Condition where
  onPath : List String
  being : List String

/-- Whether one `depends` condition matches the context: the looked-up value
is a member of the `being` set. -/
def conditionHolds (ctx : List (String × CtxVal)) (cond : Condition) : Bool :=
  match ctxLookupPath ctx cond.onPath with
  | some (.str s) => cond.being.contains s
  | _ => false

/-- Modelled from the spec: sequential evaluation of the `depends`
conditions (§4.4 step 1): each condition looks up its `on` path — a missing
path is a context lookup error — and the first non-matching condition
excludes the node. -/
def evalDepends (ctx : List (String × CtxVal)) :
    List Condition → Except ContentError Bool
  | [] => .ok true
  | c :: rest =>
    match ctxLookupPath ctx c.onPath with
    | none => .error .keyError
    | some (.str s) =>
      if c.being.contains s then evalDepends ctx rest else .ok false
    | some _ => .ok false

/-- A question node as seen by the context filter: its identity, its
(possibly templated) label fields and its dependency conditions. -/
structure SimpleQuestion where
  id : String
  name : Option TemplateField := none
  question : Option TemplateField := none
  hint : Option TemplateField := none
  question_advice : Option TemplateField := none
  depends : List Condition := []

/-- Render an optional templated field of a node. -/
def renderOptField (ctx : List (String × CtxVal)) :
    Option TemplateField → Except ContentError (Option TemplateField)
  | none => .ok none
  | some tf =>
    match tf.render ctx with
    | .ok tf2 => .ok (some tf2)
    | .error e => .error e

/-- Modelled from the spec: `filter(context)` on a question node (§4.4):
evaluate the `depends` conditions (all must match, else the node is
excluded with `none`), render every template field against the context, and
return a fresh node; errors from lookups and rendering propagate. -/
def SimpleQuestion.filter (q : SimpleQuestion) (ctx : List (String × CtxVal)) :
    Except ContentError (Option SimpleQuestion) :=
  match evalDepends ctx q.depends with
  | .error e => .error e
  | .ok false => .ok none
  | .ok true =>
    match renderOptField ctx q.name, renderOptField ctx q.question,
          renderOptField ctx q.hint, renderOptField ctx q.question_advice with
    | .ok n, .ok qq, .ok h, .ok a =>
      .ok (some { q with name := n, question := qq, hint := h, question_advice := a })
    | .error e, _, _, _ => .error e
    | _, .error e, _, _ => .error e
    | _, _, .error e, _ => .error e
    | _, _, _, .error e => .error e

/-- Modelled from the spec: the allocation behavior of `filter` (§5): nodes
live in a store of instances; filtering reads the source instance and, when
the node passes its conditions, appends a fresh filtered instance, never
writing to the source. The returned index addresses the new instance. -/
def filterStore (store : List SimpleQuestion) (i : Nat)
    (ctx : List (String × CtxVal)) :
    Except ContentError (List SimpleQuestion × Option Nat) :=
  match store[i]? with
  | none => .error .valueError
  | some q =>
    match q.filter ctx with
    | .error e => .error e
    | .ok none => .ok (store, none)
    | .ok (some q2) => .ok (store ++ [q2], some store.length)

section ModelValidation3

/-- `QuestionTest.test_question_filter_with_dependencies_that_match` /
`..._not_matched`: the node depends on `lot` being `lot-1`. -/
def lotQuestion : SimpleQuestion :=
  { id := "example", depends := [{ onPath := ["lot"], being := ["lot-1"] }] }

example : lotQuestion.filter [("lot", CtxVal.str "lot-1")] =
    .ok (some lotQuestion) := rfl

example : lotQuestion.filter [("lot", CtxVal.str "lot-2")] = .ok none := rfl

/-- `test_question_fields_are_templated`: `name` renders against the context
while its source remains retrievable. -/
def templatedName : TemplateField :=
  .unrendered [.lit "Name ", .var "name"]

example : (templatedName.render [("name", CtxVal.str "zero")]).map
    TemplateField.display = .ok (.ok "Name zero") := rfl

example : templatedName.get_source = "Name \x7b\x7b name \x7d\x7d" := rfl

example : templatedName.display = .error .contentTemplateError := rfl

example : (TemplateField.unrendered [.lit "Question"]).display = .ok "Question" := rfl

end ModelValidation3

/-! ## Error resolver -/

/-- One externally produced error record for a question: the error code,
and for dynamic-list sub-errors the child field and repeat index. -/
structure ErrRecord where
  field : Option String := none
  index : Nat := 0
  error : String := ""

/-- The value attached to a top-level field id in the error input: a bare
code for simple fields, or a list of records for a dynamic list. -/
inductive ErrVal where
  | code : String → ErrVal
  | records : List ErrRecord → ErrVal

/-- One resolved display message. -/
structure ErrMsg where
  input_name : String
  message : String
  question : String
deriving DecidableEq

/-- The `answer_required` prompt of the fixed code → message table; the
per-question-type default resolves to the same prompt for every leaf type. -/
def answerRequiredMessage (t : QType) : String :=
  match t with
  | _ => "You need to answer this question."

/-- The generic fallback for codes missing from the message table. -/
def genericErrorMessage : String :=
  "There was a problem with the answer to this question."

/-- Modelled from the spec: the fixed `code → human string` lookup (§4.6)
with its generic fallback for unrecognized codes. -/
def messageForCode (t : QType) (code : String) : String :=
  if code = "answer_required" then answerRequiredMessage t else genericErrorMessage

/-- The question type a dynamic-list sub-error resolves its message
against: the named child's type, or the list itself (treated as text). -/
def DynamicList.childType (q : DynamicList) (cid : String) : QType :=
  match q.children.find? (fun c => c.id = cid) with
  | some c => c.qtype
  | none => .text

/-- The rendered per-index label of a dynamic-list child: its label template
rendered with the `item` binding of that index (already rendered on the
filtered node, so rendering failures cannot occur there; an out-of-scope
field or index yields the empty label). -/
def DynamicList.labelAt (q : DynamicList) (cid : String) (i : Nat) : String :=
  match q.children.find? (fun c => c.id = cid) with
  | some c =>
    match renderParts [("item", CtxVal.str (q.items.getD i ""))] c.labelTemplate with
    | .ok s => s
    | .error _ => ""
  | none => ""

/-- The resolved message entry of one dynamic-list error record. -/
def DynamicList.resolveRecord (q : DynamicList) (r : ErrRecord) : String × ErrMsg :=
  match r.field with
  | some f =>
    let nm := keyAt f r.index
    (nm, ⟨nm, messageForCode (q.childType f) r.error, q.labelAt f r.index⟩)
  | none =>
    (q.id, ⟨q.id, messageForCode .text r.error, q.questionLabel⟩)

/-- Modelled from the spec: `get_error_messages` of a dynamic list (§4.6):
entries for ids other than the question's own are ignored; the records kept
are resolved in their given order into an ordered mapping from the computed
input name to `{input_name, message, question}`. -/
def DynamicList.get_error_messages (q : DynamicList)
    (errors : List (String × ErrVal)) : List (String × ErrMsg) :=
  errors.flatMap (fun kv =>
    if kv.1 = q.id then
      match kv.2 with
      | .records rs => rs.map (fun r => q.resolveRecord r)
      | .code c => [(q.id, ⟨q.id, messageForCode .text c, q.questionLabel⟩)]
    else [])

section ModelValidation4

/-- `TestDynamicListQuestion.test_get_error_messages_unknown_key`. -/
example : testDynList.get_error_messages [("example1", .code "answer_required")] = [] := rfl

/-- `TestDynamicListQuestion.test_get_error_messages`, `answer_required` case. -/
example : testDynList.get_error_messages
    [("example", .records
      [{ field := some "yesno", index := 0, error := "answer_required" },
       { field := some "evidence", index := 0, error := "answer_required" },
       { index := 1, error := "answer_required" }])] =
    [("yesno-0", ⟨"yesno-0", "You need to answer this question.", "First Need-yesno"⟩),
     ("evidence-0", ⟨"evidence-0", "You need to answer this question.", "First Need-evidence"⟩),
     ("example", ⟨"example", "You need to answer this question.", "Dynamic list"⟩)] := rfl

/-- `TestDynamicListQuestion.test_get_error_messages`, unknown-code case. -/
example : testDynList.get_error_messages
    [("example", .records
      [{ field := some "yesno", index := 0, error := "some_unknown_error" },
       { field := some "evidence", index := 0, error := "some_unknown_error" },
       { index := 1, error := "some_unknown_error" }])] =
    [("yesno-0", ⟨"yesno-0", "There was a problem with the answer to this question.",
                  "First Need-yesno"⟩),
     ("evidence-0", ⟨"evidence-0", "There was a problem with the answer to this question.",
                     "First Need-evidence"⟩),
     ("example", ⟨"example", "There was a problem with the answer to this question.",
                  "Dynamic list"⟩)] := rfl

end ModelValidation4

/-! ## Dictionary lemmas -/

theorem alookup_setKey (d : List (String × Value)) (k k2 : String) (v : Value) :
    alookup (setKey d k v) k2 = if k = k2 then some v else alookup d k2 := by
  induction d with
  | nil =>
    simp only [setKey, alookup]
  | cons kv rest ih =>
    obtain ⟨k1, v1⟩ := kv
    by_cases h : k1 = k
    · subst h
      rw [show setKey ((k1, v1) :: rest) k1 v = (k1, v) :: rest from by simp [setKey]]
      by_cases h3 : k1 = k2 <;> simp [alookup, h3]
    · rw [show setKey ((k1, v1) :: rest) k v = (k1, v1) :: setKey rest k v from by
        simp [setKey, h]]
      simp only [alookup, ih]
      by_cases h2 : k1 = k2 <;> by_cases h3 : k = k2 <;> simp_all

theorem setKey_ne_nil (d : List (String × Value)) (k : String) (v : Value) :
    setKey d k v ≠ [] := by
  cases d with
  | nil => simp [setKey]
  | cons kv rest =>
    obtain ⟨k1, v1⟩ := kv
    by_cases h : k1 = k <;> simp [setKey, h]

theorem alookup_append (d1 d2 : List (String × Value)) (k : String) :
    alookup (d1 ++ d2) k =
      match alookup d1 k with
      | some v => some v
      | none => alookup d2 k := by
  induction d1 with
  | nil => simp [alookup]
  | cons kv rest ih =>
    obtain ⟨k1, v1⟩ := kv
    by_cases h : k1 = k <;> simp [alookup, h, ih]

/-- Updating an answer dictionary with one child's contribution. -/
theorem alookup_upd_child (a : List (String × Value)) (c : ChildDef)
    (sub : List (String × Value)) (k : String) :
    alookup (updAll a (childGetData c sub)) k =
      match childDataOpt c sub with
      | some v => if c.id = k then some v else alookup a k
      | none => alookup a k := by
  rcases h : childDataOpt c sub with _ | v
  · simp [childGetData, h, updAll]
  · simp [childGetData, h, updAll, alookup_setKey]

/-! ## C10: unknown-key placeholders per variant -/

/-- C10: when submitted data carries no key for the question's id, the
checkboxes and checkbox_tree variants bind the id to an explicit null
placeholder, while the single-valued variants (text, radios, boolean,
number, date) contribute no binding at all — unknown submitted keys being
ignored either way. -/
theorem C10_unknown_key_placeholder (c : ChildDef) (sub : List (String × Value))
    (hAbsent : alookup sub c.id = none) (hNoAssurance : c.assurance = false) :
    ((c.qtype = .checkboxes ∨ c.qtype = .checkbox_tree) →
      childGetData c sub = [(c.id, Value.null)]) ∧
    ((c.qtype = .text ∨ c.qtype = .radios ∨ c.qtype = .boolean ∨
      c.qtype = .number ∨ c.qtype = .date) →
      childGetData c sub = []) := by
  constructor
  · intro h
    rcases h with h | h <;>
      simp [childGetData, childDataOpt, hNoAssurance, childRawOpt, h,
            QType.isMultiValued, hasKey, hAbsent]
  · intro h
    have hm : c.qtype.isMultiValued = false := by
      rcases h with h | h | h | h | h <;> simp [h, QType.isMultiValued]
    simp [childGetData, childDataOpt, hNoAssurance, childRawOpt, hm, hAbsent]

/-- Witness for C10 at the suite's `test_get_data_unknown_key` inputs. -/
theorem C10_witness :
    childGetData { id := "example", qtype := QType.checkboxes }
      [("other", Value.str "other value")] = [("example", Value.null)] ∧
    childGetData { id := "example", qtype := QType.text }
      [("other", Value.str "other value")] = [] :=
  ⟨(C10_unknown_key_placeholder { id := "example", qtype := QType.checkboxes }
      [("other", Value.str "other value")] rfl rfl).1 (Or.inl rfl),
   (C10_unknown_key_placeholder { id := "example", qtype := QType.text }
      [("other", Value.str "other value")] rfl rfl).2 (Or.inl rfl)⟩

/-! ## C3: assurance wrapping -/

/-- C3 (amended): with `assuranceApproach` set, `get_data` combines the
primary and `{id}--assurance` submissions into an object under the
question's id: with both keys present the object carries value and
assurance, the primary value being the single submitted value for a
single-valued question and the list of all submitted values for a
multi-valued one (checkboxes, checkbox tree); with only the assurance key
present the value key is omitted; and with neither key present the id is
still bound — to an empty object, not absent. -/
theorem C3_assurance_wrapping (c : ChildDef) (sub : List (String × Value))
    (hA : c.assurance = true) :
    (∀ v a, c.qtype.isMultiValued = false →
      alookup sub c.id = some v → v ≠ Value.null →
      alookup sub (assuranceKey c.id) = some a →
      childGetData c sub =
        [(c.id, Value.obj [("value", v), ("assurance", a)])]) ∧
    (∀ a, c.qtype.isMultiValued = true → hasKey sub c.id = true →
      alookup sub (assuranceKey c.id) = some a →
      childGetData c sub =
        [(c.id, Value.obj [("value", Value.list (getAll sub c.id)),
                           ("assurance", a)])]) ∧
    (∀ a, alookup sub c.id = none →
      alookup sub (assuranceKey c.id) = some a →
      childGetData c sub = [(c.id, Value.obj [("assurance", a)])]) ∧
    (alookup sub c.id = none → alookup sub (assuranceKey c.id) = none →
      childGetData c sub = [(c.id, Value.obj [])]) := by
  refine ⟨?_, ?_, ?_, ?_⟩
  · intro v a hSingle hv hvn ha
    cases v <;>
      simp_all [childGetData, childDataOpt, hA, childRawOpt, hSingle]
  · intro a hMulti hk ha
    simp [childGetData, childDataOpt, hA, childRawOpt, hMulti, hk, ha]
  · intro a hv ha
    have hk : hasKey sub c.id = false := by simp [hasKey, hv]
    cases hm : c.qtype.isMultiValued <;>
      simp [childGetData, childDataOpt, hA, childRawOpt, hm, hk, hv, ha]
  · intro hv ha
    have hk : hasKey sub c.id = false := by simp [hasKey, hv]
    cases hm : c.qtype.isMultiValued <;>
      simp [childGetData, childDataOpt, hA, childRawOpt, hm, hk, hv, ha]

/-- Witness for C3 at `TestText.test_get_data_with_assurance` and
`TestCheckboxes.test_get_data_with_assurance`. -/
theorem C3_witness :
    (childGetData assuredText
      [("example", Value.str "value1"), ("example--assurance", Value.str "assurance value")] =
      [("example", Value.obj [("value", Value.str "value1"),
                              ("assurance", Value.str "assurance value")])]) ∧
    (childGetData assuredCheckboxes
      [("example", Value.str "value1"), ("example", Value.str "value2"),
       ("example--assurance", Value.str "assurance value")] =
      [("example", Value.obj [("value", Value.list [Value.str "value1", Value.str "value2"]),
                              ("assurance", Value.str "assurance value")])]) :=
  ⟨(C3_assurance_wrapping assuredText
      [("example", Value.str "value1"), ("example--assurance", Value.str "assurance value")]
      rfl).1 (Value.str "value1") (Value.str "assurance value") rfl rfl (by simp) rfl,
   (C3_assurance_wrapping assuredCheckboxes
      [("example", Value.str "value1"), ("example", Value.str "value2"),
       ("example--assurance", Value.str "assurance value")]
      rfl).2.1 (Value.str "assurance value") rfl rfl rfl⟩

/-- Counterexample to C3 as stated: at `TestText.test_get_data_with_assurance_unknown_key`
neither the primary key nor the assurance key is submitted, yet the result
still binds the field id (to an empty object) instead of omitting it. -/
theorem C3_counterexample :
    alookup [("other", Value.str "value")] "example" = none ∧
    alookup [("other", Value.str "value")] (assuranceKey "example") = none ∧
    childGetData assuredText [("other", Value.str "value")] =
      [("example", Value.obj [])] :=
  ⟨rfl, rfl, rfl⟩

/-! ## Characterizing followup nulling -/

/-- Whether a lead value, if bound at all, fails the trigger list. -/
def untakenFor (o : Option Value) (ts : List Value) : Bool :=
  match o with
  | some v => !triggeredVal v ts
  | none => false

/-- Whether `k` is a followup target declared anywhere in the child list. -/
def isTargetOf (cs : List ChildDef) (k : String) : Bool :=
  cs.any (fun c => c.followup.any (fun ft => ft.1 = k))

/-- Whether, over answer data `d`, some lead in `cs` clears key `k`:
it declares `k` as a followup target and its own bound value fails the
corresponding trigger list. -/
def nulledBy (cs : List ChildDef) (d : List (String × Value)) (k : String) : Bool :=
  cs.any (fun l => l.followup.any (fun ft =>
    ft.1 = k && untakenFor (alookup d l.id) ft.2))

theorem alookup_followup_foldl (fts : List (String × List Value))
    (a : List (String × Value)) (cid k : String)
    (hcid : ∀ ft ∈ fts, ft.1 ≠ cid) :
    alookup (fts.foldl (followupStep cid) a) k =
      if fts.any (fun ft => ft.1 = k && untakenFor (alookup a cid) ft.2) then
        some Value.null
      else alookup a k := by
  induction fts generalizing a with
  | nil => simp
  | cons ft rest ih =>
    have hft : ft.1 ≠ cid := hcid ft (List.mem_cons_self ft rest)
    have hrest : ∀ f ∈ rest, f.1 ≠ cid := fun f hf => hcid f (List.mem_cons_of_mem ft hf)
    rw [List.foldl_cons]
    rcases hv : alookup a cid with _ | v
    · rw [show followupStep cid a ft = a from by simp [followupStep, hv]]
      rw [ih a hrest, hv]
      simp [untakenFor]
    · cases htrig : triggeredVal v ft.2 with
      | true =>
        rw [show followupStep cid a ft = a from by simp [followupStep, hv, htrig]]
        rw [ih a hrest, hv]
        have hu : untakenFor (some v) ft.2 = false := by
          simp [untakenFor, htrig]
        have hcond : ((ft :: rest).any fun f => decide (f.1 = k) && untakenFor (some v) f.2) =
            (rest.any fun f => decide (f.1 = k) && untakenFor (some v) f.2) := by
          simp only [List.any_cons]
          rw [hu]
          simp
        simp only [hcond]
      | false =>
        rw [show followupStep cid a ft = setKey a ft.1 Value.null from by
              simp [followupStep, hv, htrig]]
        rw [ih _ hrest]
        have hlift : alookup (setKey a ft.1 Value.null) cid = alookup a cid := by
          rw [alookup_setKey]
          simp [hft]
        rw [hlift, hv]
        have hu : untakenFor (some v) ft.2 = true := by
          simp [untakenFor, htrig]
        by_cases hk : ft.1 = k
        · subst hk
          have hcond : ((ft :: rest).any fun f => decide (f.1 = ft.1) && untakenFor (some v) f.2) =
              true := by
            simp only [List.any_cons]
            rw [hu]
            simp
          simp only [hcond]
          rw [alookup_setKey]
          simp
        · have hcond : ((ft :: rest).any fun f => decide (f.1 = k) && untakenFor (some v) f.2) =
              (rest.any fun f => decide (f.1 = k) && untakenFor (some v) f.2) := by
            simp only [List.any_cons]
            rw [hu]
            simp [hk]
          simp only [hcond]
          rw [alookup_setKey]
          simp [hk]

theorem alookup_applyFollowups_gen (cs0 : List ChildDef) (d : List (String × Value))
    (hLead : ∀ c ∈ cs0, c.followup ≠ [] → isTargetOf cs0 c.id = false) :
    ∀ (cs : List ChildDef) (a : List (String × Value)) (p : String → Bool),
      (∀ c ∈ cs, c ∈ cs0) →
      (∀ k, p k = true → isTargetOf cs0 k = true) →
      (∀ k, alookup a k = if p k then some Value.null else alookup d k) →
      ∀ k,
        alookup (cs.foldl (fun acc c => c.followup.foldl (followupStep c.id) acc) a) k =
          if p k || nulledBy cs d k then some Value.null else alookup d k := by
  intro cs
  induction cs with
  | nil =>
    intro a p hsub hp ha k
    simp [nulledBy, ha k]
  | cons l rest ih =>
    intro a p hsub hp ha k
    rw [List.foldl_cons]
    have hl0 : l ∈ cs0 := hsub l (List.mem_cons_self l rest)
    have hsubr : ∀ c ∈ rest, c ∈ cs0 := fun c hc => hsub c (List.mem_cons_of_mem l hc)
    by_cases hne : l.followup = []
    · rw [hne, List.foldl_nil]
      rw [ih a p hsubr hp ha k]
      have hcons0 : nulledBy (l :: rest) d k = nulledBy rest d k := by
        simp [nulledBy, hne]
      rw [hcons0]
    · have hnt : isTargetOf cs0 l.id = false := hLead l hl0 hne
      have hcid : ∀ ft ∈ l.followup, ft.1 ≠ l.id := by
        intro ft hft heq
        have htrue : isTargetOf cs0 l.id = true := by
          simp only [isTargetOf, List.any_eq_true]
          exact ⟨l, hl0, ⟨ft, hft, by simp [heq]⟩⟩
        rw [htrue] at hnt
        exact Bool.noConfusion hnt
      have hpl : p l.id = false := by
        cases hq : p l.id
        · rfl
        · have := hp l.id hq
          rw [this] at hnt
          exact Bool.noConfusion hnt
      have hal : alookup a l.id = alookup d l.id := by
        rw [ha l.id, hpl]
        simp
      have ha2 : ∀ k2, alookup (l.followup.foldl (followupStep l.id) a) k2 =
          if p k2 || l.followup.any (fun ft => ft.1 = k2 && untakenFor (alookup d l.id) ft.2)
          then some Value.null else alookup d k2 := by
        intro k2
        rw [alookup_followup_foldl l.followup a l.id k2 hcid, hal, ha k2]
        cases hq : l.followup.any (fun ft => ft.1 = k2 && untakenFor (alookup d l.id) ft.2) <;>
          cases hp2 : p k2 <;> simp
      have hp2 : ∀ k2,
          (p k2 || l.followup.any (fun ft => ft.1 = k2 && untakenFor (alookup d l.id) ft.2)) = true →
          isTargetOf cs0 k2 = true := by
        intro k2 hk2
        rcases Bool.or_eq_true_iff.mp hk2 with h | h
        · exact hp k2 h
        · simp only [List.any_eq_true] at h
          obtain ⟨ft, hft, hcond⟩ := h
          have h1 : ft.1 = k2 := by
            have := Bool.and_eq_true_iff.mp hcond
            exact of_decide_eq_true this.1
          simp only [isTargetOf, List.any_eq_true]
          exact ⟨l, hl0, ⟨ft, hft, by simp [h1]⟩⟩
      have hmain := ih (l.followup.foldl (followupStep l.id) a)
        (fun k2 => p k2 ||
          l.followup.any (fun ft => ft.1 = k2 && untakenFor (alookup d l.id) ft.2))
        hsubr hp2 ha2 k
      rw [hmain]
      have hcons : nulledBy (l :: rest) d k =
          (l.followup.any (fun ft => ft.1 = k && untakenFor (alookup d l.id) ft.2) ||
           nulledBy rest d k) := by
        simp [nulledBy]
      rw [hcons, Bool.or_assoc]

/-- Lookup characterization of followup nulling: as long as no lead is
itself a followup target, the resolved data binds `k` to null exactly when
some lead clears it, and is otherwise the input data. -/
theorem alookup_applyFollowups (cs : List ChildDef) (d : List (String × Value))
    (hLead : ∀ c ∈ cs, c.followup ≠ [] → isTargetOf cs c.id = false) (k : String) :
    alookup (applyFollowups cs d) k =
      if nulledBy cs d k then some Value.null else alookup d k := by
  have h := alookup_applyFollowups_gen cs d hLead cs d (fun _ => false)
    (fun c hc => hc) (fun k2 hk => Bool.noConfusion hk) (fun k2 => by simp) k
  simpa [applyFollowups] using h

/-! ## Characterizing the base answer data -/

/-- For a single-valued, non-assured child the data binding is exactly the
submitted lookup. -/
theorem childDataOpt_single (c : ChildDef) (sub : List (String × Value))
    (h1 : c.qtype.isMultiValued = false) (h2 : c.assurance = false) :
    childDataOpt c sub = alookup sub c.id := by
  simp [childDataOpt, h2, childRawOpt, h1]

theorem alookup_baseData_fold_no_writer (cs : List ChildDef)
    (sub : List (String × Value)) (a : List (String × Value)) (k : String)
    (h : ∀ c ∈ cs, c.id ≠ k) :
    alookup (cs.foldl (fun a2 c => updAll a2 (childGetData c sub)) a) k =
      alookup a k := by
  induction cs generalizing a with
  | nil => simp
  | cons c rest ih =>
    rw [List.foldl_cons, ih _ (fun c2 hc2 => h c2 (List.mem_cons_of_mem c hc2))]
    rw [alookup_upd_child]
    have hck := h c (List.mem_cons_self c rest)
    rcases hco : childDataOpt c sub with _ | v <;> simp [hck]

/-- The first binding a key receives in the base data is the contribution
of the first (and, with distinct ids, the only) child that owns it. -/
def childLookup (cs : List ChildDef) (sub : List (String × Value)) (k : String) :
    Option Value :=
  match cs.find? (fun c => c.id = k) with
  | some c => childDataOpt c sub
  | none => none

theorem alookup_baseData_gen (cs : List ChildDef) (sub : List (String × Value))
    (k : String) (hNodup : (cs.map ChildDef.id).Nodup) :
    ∀ acc, alookup (cs.foldl (fun a2 c => updAll a2 (childGetData c sub)) acc) k =
      match childLookup cs sub k with
      | some v => some v
      | none => alookup acc k := by
  induction cs with
  | nil =>
    intro acc
    simp [childLookup]
  | cons c rest ih =>
    intro acc
    have hNodupR : (rest.map ChildDef.id).Nodup := by
      simp only [List.map_cons, List.nodup_cons] at hNodup
      exact hNodup.2
    have hNotMem : c.id ∉ rest.map ChildDef.id := by
      simp only [List.map_cons, List.nodup_cons] at hNodup
      exact hNodup.1
    rw [List.foldl_cons]
    by_cases hck : c.id = k
    · have hfind : (c :: rest).find? (fun c2 => c2.id = k) = some c := by
        simp [List.find?_cons, hck]
      have hnw : ∀ c2 ∈ rest, c2.id ≠ k := by
        intro c2 hc2 heq
        exact hNotMem (by rw [hck, ← heq]; exact List.mem_map_of_mem ChildDef.id hc2)
      rw [alookup_baseData_fold_no_writer rest sub _ k hnw]
      rw [alookup_upd_child]
      simp only [childLookup, hfind]
      rcases hco : childDataOpt c sub with _ | v <;> simp [hck]
    · have hfind : (c :: rest).find? (fun c2 => c2.id = k) =
          rest.find? (fun c2 => c2.id = k) := by
        simp [List.find?_cons, hck]
      rw [ih hNodupR]
      have hupd : alookup (updAll acc (childGetData c sub)) k = alookup acc k := by
        rw [alookup_upd_child]
        rcases hco : childDataOpt c sub with _ | v <;> simp [hck]
      simp only [childLookup, hfind, hupd]

/-- Lookup characterization of the base data for children with pairwise
distinct ids. -/
theorem alookup_baseData (cs : List ChildDef) (sub : List (String × Value))
    (k : String) (hNodup : (cs.map ChildDef.id).Nodup) :
    alookup (baseData cs sub) k = childLookup cs sub k := by
  rw [show baseData cs sub =
        cs.foldl (fun a2 c => updAll a2 (childGetData c sub)) [] from rfl]
  rw [alookup_baseData_gen cs sub k hNodup []]
  rcases h : childLookup cs sub k with _ | v <;> simp [alookup]

/-- Lookup characterization of the base data when every child is
single-valued and unassured: the base data reads straight through to the
submitted data on the child ids, and binds nothing else. -/
theorem alookup_baseData_single_gen (sub : List (String × Value)) (k : String) :
    ∀ cs : List ChildDef,
      (∀ c ∈ cs, c.qtype.isMultiValued = false ∧ c.assurance = false) →
      ∀ acc, alookup (cs.foldl (fun a2 c => updAll a2 (childGetData c sub)) acc) k =
        if cs.any (fun c => c.id = k) && (alookup sub k).isSome then alookup sub k
        else alookup acc k := by
  intro cs
  induction cs with
  | nil =>
    intro hS acc
    simp
  | cons c rest ih =>
    intro hS acc
    have hc := hS c (List.mem_cons_self c rest)
    have hSr : ∀ c2 ∈ rest, c2.qtype.isMultiValued = false ∧ c2.assurance = false :=
      fun c2 hc2 => hS c2 (List.mem_cons_of_mem c hc2)
    rw [List.foldl_cons, ih hSr, alookup_upd_child,
        childDataOpt_single c sub hc.1 hc.2]
    by_cases hck : c.id = k
    · rcases hs : alookup sub k with _ | v
      · have hs2 : alookup sub c.id = none := by rw [hck, hs]
        simp [hs, hs2]
      · have hs2 : alookup sub c.id = some v := by rw [hck, hs]
        simp [hs, hs2, hck]
    · rcases hs : alookup sub c.id with _ | v <;> simp [hck]

theorem alookup_baseData_single (cs : List ChildDef) (sub : List (String × Value))
    (k : String) (hS : ∀ c ∈ cs, c.qtype.isMultiValued = false ∧ c.assurance = false) :
    alookup (baseData cs sub) k =
      if cs.any (fun c => c.id = k) then alookup sub k else none := by
  rw [show baseData cs sub =
        cs.foldl (fun a2 c => updAll a2 (childGetData c sub)) [] from rfl]
  rw [alookup_baseData_single_gen sub k cs hS []]
  rcases hs : alookup sub k with _ | v
  · cases h2 : cs.any (fun c => c.id = k) <;> simp [alookup]
  · cases h2 : cs.any (fun c => c.id = k) <;> simp [h2, alookup]

/-! ## Emptiness of the bound data -/

theorem base_fold_ne_nil (cs : List ChildDef) (sub : List (String × Value)) :
    ∀ acc, acc ≠ [] →
      cs.foldl (fun a2 c => updAll a2 (childGetData c sub)) acc ≠ [] := by
  induction cs with
  | nil =>
    intro acc h
    simpa using h
  | cons c rest ih =>
    intro acc h
    rw [List.foldl_cons]
    apply ih
    rcases hco : childDataOpt c sub with _ | v
    · simpa [updAll, childGetData, hco] using h
    · simp only [updAll, childGetData, hco, List.foldl_cons, List.foldl_nil]
      exact setKey_ne_nil acc c.id v

theorem baseData_eq_nil_iff (cs : List ChildDef) (sub : List (String × Value)) :
    baseData cs sub = [] ↔ ∀ c ∈ cs, childDataOpt c sub = none := by
  rw [show baseData cs sub =
        cs.foldl (fun a2 c => updAll a2 (childGetData c sub)) [] from rfl]
  induction cs with
  | nil => simp
  | cons c rest ih =>
    rw [List.foldl_cons]
    constructor
    · intro h
      rcases hco : childDataOpt c sub with _ | v
      · have hacc : updAll [] (childGetData c sub) = [] := by
          simp [updAll, childGetData, hco]
        rw [hacc] at h
        intro c2 hc2
        rcases List.mem_cons.mp hc2 with h2 | h2
        · rw [h2, hco]
        · exact (ih.mp h) c2 h2
      · exfalso
        have hacc : updAll [] (childGetData c sub) = [(c.id, v)] := by
          simp [updAll, childGetData, hco, setKey]
        rw [hacc] at h
        exact base_fold_ne_nil rest sub [(c.id, v)] (by simp) h
    · intro h
      have hco : childDataOpt c sub = none := h c (List.mem_cons_self c rest)
      have hacc : updAll [] (childGetData c sub) = [] := by
        simp [updAll, childGetData, hco]
      rw [hacc]
      exact ih.mpr (fun c2 hc2 => h c2 (List.mem_cons_of_mem c hc2))

theorem followup_foldl_nil (cid : String) (fts : List (String × List Value)) :
    fts.foldl (followupStep cid) [] = [] := by
  induction fts with
  | nil => rfl
  | cons ft rest ih =>
    rw [List.foldl_cons, show followupStep cid [] ft = [] from by
      simp [followupStep, alookup]]
    exact ih

theorem applyFollowups_nil (cs : List ChildDef) : applyFollowups cs [] = [] := by
  rw [applyFollowups]
  induction cs with
  | nil => rfl
  | cons c rest ih =>
    rw [List.foldl_cons, followup_foldl_nil]
    exact ih

theorem followup_foldl_ne_nil (cid : String) (fts : List (String × List Value)) :
    ∀ a, a ≠ [] → fts.foldl (followupStep cid) a ≠ [] := by
  induction fts with
  | nil =>
    intro a h
    simpa using h
  | cons ft rest ih =>
    intro a h
    rw [List.foldl_cons]
    apply ih
    rw [followupStep]
    rcases hv : alookup a cid with _ | v
    · exact h
    · cases htrig : triggeredVal v ft.2
      · simpa [htrig] using setKey_ne_nil a ft.1 Value.null
      · simpa [htrig] using h

theorem applyFollowups_ne_nil (cs : List ChildDef) (d : List (String × Value))
    (h : d ≠ []) : applyFollowups cs d ≠ [] := by
  rw [applyFollowups]
  induction cs generalizing d with
  | nil =>
    simpa using h
  | cons c rest ih =>
    rw [List.foldl_cons]
    exact ih _ (followup_foldl_ne_nil c.id c.followup d h)

/-- The bound multiquestion data is empty exactly when no child contributed
any binding. -/
theorem mqGetData_eq_nil_iff (cs : List ChildDef) (sub : List (String × Value)) :
    mqGetData cs sub = [] ↔ ∀ c ∈ cs, childDataOpt c sub = none := by
  rw [mqGetData]
  constructor
  · intro h
    rcases hb : baseData cs sub with _ | ⟨kv, rest⟩
    · exact (baseData_eq_nil_iff cs sub).mp hb
    · exfalso
      rw [hb] at h
      exact applyFollowups_ne_nil cs (kv :: rest) (by simp) h
  · intro h
    rw [(baseData_eq_nil_iff cs sub).mpr h, applyFollowups_nil]

/-- With pairwise distinct ids, a member is found by its own id. -/
theorem find_id_of_nodup (cs : List ChildDef) (l : ChildDef) (hl : l ∈ cs)
    (hNodup : (cs.map ChildDef.id).Nodup) :
    cs.find? (fun c => c.id = l.id) = some l := by
  induction cs with
  | nil => cases hl
  | cons c rest ih =>
    have hNodupR : (rest.map ChildDef.id).Nodup := by
      simp only [List.map_cons, List.nodup_cons] at hNodup
      exact hNodup.2
    have hNotMem : c.id ∉ rest.map ChildDef.id := by
      simp only [List.map_cons, List.nodup_cons] at hNodup
      exact hNodup.1
    rcases List.mem_cons.mp hl with h | h
    · subst h
      simp [List.find?_cons]
    · have hne : ¬c.id = l.id := by
        intro heq
        have hmem : l.id ∈ rest.map ChildDef.id := List.mem_map_of_mem ChildDef.id h
        rw [← heq] at hmem
        exact hNotMem hmem
      have hd : (decide (c.id = l.id)) = false := by simp [hne]
      rw [List.find?_cons, hd]
      exact ih h hNodupR

/-! ## C2: followup nulling on a multiquestion -/

/-- C2: in a multiquestion whose child `l` declares the followup
`{dep.id : ts}`, `get_data` behaves as follows. (i) When the lead is
single-valued, its submitted value fails the trigger list and the dependent
id is absent from the submitted data, the dependent id is still bound —
explicitly to null. (ii) The same holds for a checkboxes lead none of whose
submitted values is a trigger value. (iii) When the lead's bound value
meets the trigger list the dependent field is not forced: its binding is
exactly its own submitted lookup — absent stays absent and a submitted
value passes through untouched. -/
theorem C2_followup_nulling (cs : List ChildDef) (sub : List (String × Value))
    (l dep : ChildDef) (ts : List Value)
    (hl : l ∈ cs) (hdep : dep ∈ cs) (hft : (dep.id, ts) ∈ l.followup)
    (hNodup : (cs.map ChildDef.id).Nodup)
    (hLead : ∀ c ∈ cs, c.followup ≠ [] → isTargetOf cs c.id = false)
    (hOnly : ∀ c ∈ cs, ∀ ft ∈ c.followup, ft.1 = dep.id → c = l ∧ ft = (dep.id, ts)) :
    (∀ v, l.qtype.isMultiValued = false → l.assurance = false →
      alookup sub l.id = some v → triggeredVal v ts = false →
      alookup sub dep.id = none →
      alookup (mqGetData cs sub) dep.id = some Value.null) ∧
    (l.qtype = QType.checkboxes → l.assurance = false →
      hasKey sub l.id = true →
      (∀ w ∈ getAll sub l.id, ts.any (fun t => Value.primEq w t) = false) →
      alookup sub dep.id = none →
      alookup (mqGetData cs sub) dep.id = some Value.null) ∧
    (∀ v2, childDataOpt l sub = some v2 → triggeredVal v2 ts = true →
      dep.qtype.isMultiValued = false → dep.assurance = false →
      alookup (mqGetData cs sub) dep.id = alookup sub dep.id) := by
  have hmq : mqGetData cs sub = applyFollowups cs (baseData cs sub) := rfl
  have hbl : alookup (baseData cs sub) l.id = childDataOpt l sub := by
    rw [alookup_baseData cs sub l.id hNodup, childLookup,
        find_id_of_nodup cs l hl hNodup]
  refine ⟨?_, ?_, ?_⟩
  · intro v hsv hsa hv hnt hd
    have hco : childDataOpt l sub = some v := by
      rw [childDataOpt_single l sub hsv hsa, hv]
    have hnb : nulledBy cs (baseData cs sub) dep.id = true := by
      simp only [nulledBy, List.any_eq_true]
      refine ⟨l, hl, ⟨(dep.id, ts), hft, ?_⟩⟩
      rw [hbl, hco]
      simp [untakenFor, hnt]
    rw [hmq, alookup_applyFollowups cs (baseData cs sub) hLead dep.id, if_pos hnb]
  · intro hcb hsa hkv hall hd
    have hco : childDataOpt l sub = some (Value.list (getAll sub l.id)) := by
      simp [childDataOpt, hsa, childRawOpt, hcb, QType.isMultiValued, hkv]
    have hnt : triggeredVal (Value.list (getAll sub l.id)) ts = false := by
      rw [triggeredVal, asList]
      rcases h : (getAll sub l.id).any (fun x => ts.any fun t => Value.primEq x t) with _ | _
      · rfl
      · exfalso
        rw [List.any_eq_true] at h
        obtain ⟨w, hw, hwt⟩ := h
        rw [hall w hw] at hwt
        exact Bool.noConfusion hwt
    have hnb : nulledBy cs (baseData cs sub) dep.id = true := by
      simp only [nulledBy, List.any_eq_true]
      refine ⟨l, hl, ⟨(dep.id, ts), hft, ?_⟩⟩
      rw [hbl, hco]
      simp [untakenFor, hnt]
    rw [hmq, alookup_applyFollowups cs (baseData cs sub) hLead dep.id, if_pos hnb]
  · intro v2 hco htrig hdt hda
    have hnb : nulledBy cs (baseData cs sub) dep.id = false := by
      cases hq : nulledBy cs (baseData cs sub) dep.id
      · rfl
      · exfalso
        rw [nulledBy, List.any_eq_true] at hq
        obtain ⟨c, hc, hinner⟩ := hq
        rw [List.any_eq_true] at hinner
        obtain ⟨ft, hftc, hband⟩ := hinner
        rw [Bool.and_eq_true] at hband
        have hfid : ft.1 = dep.id := of_decide_eq_true hband.1
        obtain ⟨hcl, hftl⟩ := hOnly c hc ft hftc hfid
        subst hcl
        rw [hftl] at hband
        have := hband.2
        rw [hbl, hco] at this
        simp [untakenFor, htrig] at this
    rw [hmq, alookup_applyFollowups cs (baseData cs sub) hLead dep.id, if_neg ?_]
    · rw [alookup_baseData cs sub dep.id hNodup, childLookup,
          find_id_of_nodup cs dep hdep hNodup]
      exact childDataOpt_single dep sub hdt hda
    · rw [hnb]
      exact Bool.noConfusion

/-- Witness for C2 at the multiquestion of
`TestMultiquestion.test_nested_question_followup_get_data`. -/
theorem C2_witness :
    alookup (mqGetData followupMq [("lead", Value.bool false)]) "follow" =
      some Value.null ∧
    alookup (mqGetData followupMq
      [("lead", Value.bool true), ("follow", Value.str "a")]) "follow" =
      some (Value.str "a") := by
  have happ : ∀ sub : List (String × Value), _ := fun sub =>
    C2_followup_nulling followupMq sub
      { id := "lead", qtype := QType.boolean, followup := [("follow", [Value.bool true])] }
      { id := "follow", qtype := QType.text }
      [Value.bool true]
      (List.mem_cons_self _ _)
      (List.mem_cons_of_mem _ (List.mem_cons_self _ _))
      (List.mem_cons_self _ _)
      (by decide)
      (by
        intro c hc hne
        rcases List.mem_cons.mp hc with h | h
        · subst h
          rfl
        · rcases List.mem_cons.mp h with h2 | h2
          · subst h2
            exact absurd rfl hne
          · cases h2)
      (by
        intro c hc ft hftc hfid
        rcases List.mem_cons.mp hc with h | h
        · subst h
          rcases List.mem_cons.mp hftc with h2 | h2
          · subst h2
            exact ⟨rfl, rfl⟩
          · cases h2
        · rcases List.mem_cons.mp h with h2 | h2
          · subst h2
            cases hftc
          · cases h2)
  constructor
  · exact (happ [("lead", Value.bool false)]).1 (Value.bool false) rfl rfl rfl rfl rfl
  · exact ((happ [("lead", Value.bool true), ("follow", Value.str "a")]).2.2
      (Value.bool true) rfl rfl rfl rfl).trans rfl

/-! ## Characterizing the dynamic-list data binding -/

/-- All children of the dynamic list are single-valued and unassured. -/
abbrev SingleChildren (cs : List ChildDef) : Prop :=
  ∀ c ∈ cs, c.qtype.isMultiValued = false ∧ c.assurance = false

/-- The `{child_id}-{index}` keys of the dynamic list are unambiguous. -/
abbrev KeyInj (cs : List ChildDef) (n : Nat) : Prop :=
  ∀ c ∈ cs, ∀ c2 ∈ cs, ∀ i, i < n → ∀ j, j < n →
    keyAt c.id i = keyAt c2.id j → c.id = c2.id ∧ i = j

/-- Every followup target names a sibling child. -/
abbrev TargetsAreChildren (cs : List ChildDef) : Prop :=
  ∀ c ∈ cs, ∀ ft ∈ c.followup, ∃ c2 ∈ cs, ft.1 = c2.id

/-- No followup target is itself a lead (no followup chains). -/
abbrev LeadsNotTargets (cs : List ChildDef) : Prop :=
  ∀ c ∈ cs, ∀ ft ∈ c.followup, ∀ c2 ∈ cs, c2.followup.isEmpty = false → ft.1 ≠ c2.id

/-- Whether the submission clears child field `cid` at index `i`: some
sibling lead declares it as a followup target and that lead's submitted
value at index `i` fails the trigger list. -/
def clearedAt (cs : List ChildDef) (sub : List (String × Value)) (cid : String)
    (i : Nat) : Bool :=
  cs.any (fun l => l.followup.any (fun ft =>
    ft.1 = cid && untakenFor (alookup sub (keyAt l.id i)) ft.2))

/-- The entry child `c` contributes to the per-index answer mapping of
index `i`: its submitted value at that index, provided the value is
non-empty and not cleared by an untaken followup. -/
def keptEntry (cs : List ChildDef) (sub : List (String × Value)) (i : Nat)
    (c : ChildDef) : Option (String × Value) :=
  match alookup sub (keyAt c.id i) with
  | some v => if keepVal v && !clearedAt cs sub c.id i then some (c.id, v) else none
  | none => none

theorem bool_eq_of_iff {a b : Bool} (h : a = true ↔ b = true) : a = b := by
  cases a <;> cases b <;> simp_all

theorem reindexChild_id (c : ChildDef) (i : Nat) :
    (reindexChild c i).id = keyAt c.id i := rfl

theorem mem_expandChildren {cs : List ChildDef} {n : Nat} {c2 : ChildDef} :
    c2 ∈ expandChildren cs n ↔ ∃ i, i < n ∧ ∃ c ∈ cs, reindexChild c i = c2 := by
  simp [expandChildren, List.mem_flatMap, List.mem_range, List.mem_map]

theorem expand_single (cs : List ChildDef) (n : Nat) (hS : SingleChildren cs) :
    SingleChildren (expandChildren cs n) := by
  intro c2 hc2
  obtain ⟨i, hi, c, hc, hre⟩ := mem_expandChildren.mp hc2
  subst hre
  exact hS c hc

theorem expand_any_id (cs : List ChildDef) (n : Nat) (c : ChildDef) (hc : c ∈ cs)
    (i : Nat) (hi : i < n) :
    (expandChildren cs n).any (fun c2 => c2.id = keyAt c.id i) = true := by
  rw [List.any_eq_true]
  exact ⟨reindexChild c i, mem_expandChildren.mpr ⟨i, hi, c, hc, rfl⟩,
    decide_eq_true rfl⟩

/-- On an in-range child key, the base data of the expanded children reads
through to the submitted data. -/
theorem alookup_base_expanded (cs : List ChildDef) (n : Nat)
    (sub : List (String × Value)) (hS : SingleChildren cs)
    (c : ChildDef) (hc : c ∈ cs) (i : Nat) (hi : i < n) :
    alookup (baseData (expandChildren cs n) sub) (keyAt c.id i) =
      alookup sub (keyAt c.id i) := by
  rw [alookup_baseData_single (expandChildren cs n) sub (keyAt c.id i)
        (expand_single cs n hS),
      if_pos (expand_any_id cs n c hc i hi)]

/-- Expansion preserves the absence of followup chains. -/
theorem expand_leads_not_targets (cs : List ChildDef) (n : Nat)
    (hInj : KeyInj cs n) (hT : TargetsAreChildren cs) (hL : LeadsNotTargets cs) :
    ∀ c2 ∈ expandChildren cs n, c2.followup ≠ [] →
      isTargetOf (expandChildren cs n) c2.id = false := by
  intro c2 hc2 hne
  obtain ⟨i, hi, c, hc, hre⟩ := mem_expandChildren.mp hc2
  subst hre
  have hcne : c.followup ≠ [] := by
    intro h
    apply hne
    simp [reindexChild, h]
  cases hq : isTargetOf (expandChildren cs n) (reindexChild c i).id
  · rfl
  · exfalso
    rw [isTargetOf, List.any_eq_true] at hq
    obtain ⟨l2, hl2, hinner⟩ := hq
    rw [List.any_eq_true] at hinner
    obtain ⟨ft2, hft2, heq⟩ := hinner
    obtain ⟨j, hj, l, hl, hrel⟩ := mem_expandChildren.mp hl2
    subst hrel
    simp only [reindexChild, List.mem_map] at hft2
    obtain ⟨ft, hft, hftre⟩ := hft2
    have heqk : keyAt ft.1 j = keyAt c.id i := by
      have h1 : ft2.1 = keyAt ft.1 j := by rw [← hftre]
      rw [← h1]
      exact of_decide_eq_true heq
    obtain ⟨c3, hc3, hftc3⟩ := hT l hl ft hft
    rw [hftc3] at heqk
    have hij := hInj c3 hc3 c hc j hj i hi heqk
    have hfc : ft.1 = c.id := by rw [hftc3, hij.1]
    have hcemp : c.followup.isEmpty = false := by
      rcases hcf : c.followup with _ | ⟨a, b⟩
      · exact absurd hcf hcne
      · rfl
    exact hL l hl ft hft c hc hcemp hfc

/-- On an in-range child key, nulling over the expanded children coincides
with the index-local `clearedAt` test against the submitted data. -/
theorem nulledBy_expanded (cs : List ChildDef) (n : Nat)
    (sub : List (String × Value)) (hS : SingleChildren cs) (hInj : KeyInj cs n)
    (hT : TargetsAreChildren cs)
    (c : ChildDef) (hc : c ∈ cs) (i : Nat) (hi : i < n) :
    nulledBy (expandChildren cs n) (baseData (expandChildren cs n) sub)
      (keyAt c.id i) = clearedAt cs sub c.id i := by
  apply bool_eq_of_iff
  constructor
  · intro h
    rw [nulledBy, List.any_eq_true] at h
    obtain ⟨l2, hl2, hinner⟩ := h
    rw [List.any_eq_true] at hinner
    obtain ⟨ft2, hft2, hband⟩ := hinner
    rw [Bool.and_eq_true] at hband
    obtain ⟨j, hj, l, hl, hrel⟩ := mem_expandChildren.mp hl2
    subst hrel
    simp only [reindexChild, List.mem_map] at hft2
    obtain ⟨ft, hft, hftre⟩ := hft2
    have h1 : ft2.1 = keyAt ft.1 j := by rw [← hftre]
    have h2 : ft2.2 = ft.2 := by rw [← hftre]
    have heqk : keyAt ft.1 j = keyAt c.id i := by
      rw [← h1]
      exact of_decide_eq_true hband.1
    obtain ⟨c3, hc3, hftc3⟩ := hT l hl ft hft
    rw [hftc3] at heqk
    have hij := hInj c3 hc3 c hc j hj i hi heqk
    have hji : j = i := hij.2
    subst hji
    have hfc : ft.1 = c.id := by rw [hftc3, hij.1]
    rw [clearedAt, List.any_eq_true]
    refine ⟨l, hl, ?_⟩
    rw [List.any_eq_true]
    refine ⟨ft, hft, ?_⟩
    rw [Bool.and_eq_true]
    refine ⟨by simp [hfc], ?_⟩
    have hbb := hband.2
    rw [h2] at hbb
    rw [show (reindexChild l j).id = keyAt l.id j from rfl] at hbb
    rw [alookup_base_expanded cs n sub hS l hl j hj] at hbb
    exact hbb
  · intro h
    rw [clearedAt, List.any_eq_true] at h
    obtain ⟨l, hl, hinner⟩ := h
    rw [List.any_eq_true] at hinner
    obtain ⟨ft, hft, hband⟩ := hinner
    rw [Bool.and_eq_true] at hband
    have hfc : ft.1 = c.id := of_decide_eq_true hband.1
    rw [nulledBy, List.any_eq_true]
    refine ⟨reindexChild l i, mem_expandChildren.mpr ⟨i, hi, l, hl, rfl⟩, ?_⟩
    rw [List.any_eq_true]
    refine ⟨(keyAt ft.1 i, ft.2), ?_, ?_⟩
    · simp only [reindexChild, List.mem_map]
      exact ⟨ft, hft, rfl⟩
    · rw [Bool.and_eq_true]
      refine ⟨by simp [hfc], ?_⟩
      rw [show (reindexChild l i).id = keyAt l.id i from rfl]
      rw [alookup_base_expanded cs n sub hS l hl i hi]
      exact hband.2

/-- Lookup characterization of the bound dynamic-list data on an in-range
child key: the submitted value, cleared to null by untaken followups. -/
theorem alookup_dyn_qd (cs : List ChildDef) (n : Nat) (sub : List (String × Value))
    (hS : SingleChildren cs) (hInj : KeyInj cs n) (hT : TargetsAreChildren cs)
    (hL : LeadsNotTargets cs)
    (c : ChildDef) (hc : c ∈ cs) (i : Nat) (hi : i < n) :
    alookup (mqGetData (expandChildren cs n) sub) (keyAt c.id i) =
      if clearedAt cs sub c.id i then some Value.null
      else alookup sub (keyAt c.id i) := by
  rw [show mqGetData (expandChildren cs n) sub =
        applyFollowups (expandChildren cs n) (baseData (expandChildren cs n) sub)
        from rfl]
  rw [alookup_applyFollowups (expandChildren cs n)
        (baseData (expandChildren cs n) sub)
        (expand_leads_not_targets cs n hInj hT hL) (keyAt c.id i)]
  rw [nulledBy_expanded cs n sub hS hInj hT c hc i hi,
      alookup_base_expanded cs n sub hS c hc i hi]

theorem map_congr_mem {α β : Type} (l : List α) (f g : α → β)
    (h : ∀ a ∈ l, f a = g a) : l.map f = l.map g := by
  induction l with
  | nil => rfl
  | cons a rest ih =>
    rw [List.map_cons, List.map_cons, h a (List.mem_cons_self a rest),
        ih (fun a2 ha2 => h a2 (List.mem_cons_of_mem a ha2))]

theorem filterMap_congr_mem {α β : Type} (l : List α) (f g : α → Option β)
    (h : ∀ a ∈ l, f a = g a) : l.filterMap f = l.filterMap g := by
  induction l with
  | nil => rfl
  | cons a rest ih =>
    rw [List.filterMap_cons, List.filterMap_cons, h a (List.mem_cons_self a rest),
        ih (fun a2 ha2 => h a2 (List.mem_cons_of_mem a ha2))]

/-- The bound dynamic-list data is empty exactly when no in-range child key
is present in the submitted data. -/
theorem dyn_qd_nil_iff (cs : List ChildDef) (n : Nat) (sub : List (String × Value))
    (hS : SingleChildren cs) :
    mqGetData (expandChildren cs n) sub = [] ↔
      ∀ c ∈ cs, ∀ i, i < n → alookup sub (keyAt c.id i) = none := by
  rw [mqGetData_eq_nil_iff]
  constructor
  · intro h c hc i hi
    have h2 := h (reindexChild c i) (mem_expandChildren.mpr ⟨i, hi, c, hc, rfl⟩)
    rwa [childDataOpt_single (reindexChild c i) sub (hS c hc).1 (hS c hc).2] at h2
  · intro h c2 hc2
    obtain ⟨i, hi, c, hc, hre⟩ := mem_expandChildren.mp hc2
    subst hre
    rw [childDataOpt_single (reindexChild c i) sub (hS c hc).1 (hS c hc).2]
    exact h c hc i hi

/-- The i-th per-index answer mapping of the bound data consists exactly of
the kept entries of index `i`. -/
theorem dyn_entry_eq_keptEntry (cs : List ChildDef) (n : Nat)
    (sub : List (String × Value)) (hS : SingleChildren cs) (hInj : KeyInj cs n)
    (hT : TargetsAreChildren cs) (hL : LeadsNotTargets cs)
    (c : ChildDef) (hc : c ∈ cs) (i : Nat) (hi : i < n) :
    (match alookup (mqGetData (expandChildren cs n) sub) (keyAt c.id i) with
     | some v => if keepVal v then some (c.id, v) else none
     | none => none) = keptEntry cs sub i c := by
  rw [alookup_dyn_qd cs n sub hS hInj hT hL c hc i hi, keptEntry]
  cases hcl : clearedAt cs sub c.id i
  · rcases hsv : alookup sub (keyAt c.id i) with _ | v
    · rfl
    · simp
  · rcases hsv : alookup sub (keyAt c.id i) with _ | v
    · rfl
    · simp [keepVal]

/-! ## C1: the dynamic-list answer shape -/

/-- The dynamic-list answer shape as the specification sentence reads: the
per-index mappings of the non-empty child fields are computed and any index
with no present value contributes no mapping to the list, except that when
every index is empty each index still contributes an empty placeholder to
preserve the index-aligned length. -/
def claimDynListData (q : DynamicList) (sub : List (String × Value)) :
    List (String × Value) :=
  let perIndex := (List.range q.items.length).map (fun i =>
    q.children.filterMap (fun c =>
      match alookup sub (keyAt c.id i) with
      | some v => if keepVal v then some (c.id, v) else none
      | none => none))
  if perIndex.all (fun m => m.isEmpty) then
    [(q.id, Value.list (perIndex.map (fun _ => Value.obj [])))]
  else
    [(q.id, Value.list ((perIndex.filter (fun m => !m.isEmpty)).map Value.obj))]

/-- The length of the answer list bound to `k`. -/
def answerListLength (d : List (String × Value)) (k : String) : Option Nat :=
  match alookup d k with
  | some (Value.list l) => some l.length
  | _ => none

/-- With no recognized child key, the bound dynamic-list answer is the
empty list. -/
theorem dyn_get_data_none_case (q : DynamicList) (sub : List (String × Value))
    (hS : SingleChildren q.children)
    (h : ∀ c ∈ q.children, ∀ i, i < q.items.length →
      alookup sub (keyAt c.id i) = none) :
    q.get_data sub = [(q.id, Value.list [])] := by
  have hnil : mqGetData (expandChildren q.children q.items.length) sub = [] :=
    (dyn_qd_nil_iff q.children q.items.length sub hS).mpr h
  rw [DynamicList.get_data, hnil]
  rfl

/-- With at least one recognized child key, the bound dynamic-list answer
has one per-index mapping of kept entries for every index. -/
theorem dyn_get_data_some_case (q : DynamicList) (sub : List (String × Value))
    (hS : SingleChildren q.children) (hInj : KeyInj q.children q.items.length)
    (hT : TargetsAreChildren q.children) (hL : LeadsNotTargets q.children)
    (h : ∃ c ∈ q.children, ∃ i, i < q.items.length ∧
      (alookup sub (keyAt c.id i)).isSome = true) :
    q.get_data sub = [(q.id, Value.list ((List.range q.items.length).map (fun i =>
      Value.obj (q.children.filterMap (keptEntry q.children sub i)))))] := by
  obtain ⟨c, hc, i, hi, hsome⟩ := h
  have hne : mqGetData (expandChildren q.children q.items.length) sub ≠ [] := by
    intro hnil
    have h2 := (dyn_qd_nil_iff q.children q.items.length sub hS).mp hnil c hc i hi
    rw [h2] at hsome
    exact Bool.noConfusion hsome
  have hie : (mqGetData (expandChildren q.children q.items.length) sub).isEmpty =
      false := by
    rcases hq : mqGetData (expandChildren q.children q.items.length) sub with _ | _
    · exact absurd hq hne
    · rfl
  rw [DynamicList.get_data, if_neg (by rw [hie]; exact Bool.noConfusion)]
  refine congrArg (fun L => [(q.id, Value.list L)]) ?_
  apply map_congr_mem
  intro i2 hi2
  rw [List.mem_range] at hi2
  refine congrArg Value.obj ?_
  apply filterMap_congr_mem
  intro c2 hc2
  exact dyn_entry_eq_keptEntry q.children q.items.length sub hS hInj hT hL
    c2 hc2 i2 hi2

/-- C1 (amended): for a filtered dynamic list with N items, `get_data`
returns `{id : L}` where: if no `{child_id}-{index}` key is recognized in
the submission then L is the empty list; otherwise L has exactly one
per-index mapping for every index 0..N-1 — an index with nothing to show
contributes an empty placeholder mapping rather than being omitted — and
the i-th mapping holds exactly the child fields whose submitted value at
index i is present, non-empty and not cleared by an untaken followup. -/
theorem C1_dynamic_list_get_data (q : DynamicList) (sub : List (String × Value))
    (hS : SingleChildren q.children) (hInj : KeyInj q.children q.items.length)
    (hT : TargetsAreChildren q.children) (hL : LeadsNotTargets q.children) :
    ((∀ c ∈ q.children, ∀ i, i < q.items.length →
        alookup sub (keyAt c.id i) = none) →
      q.get_data sub = [(q.id, Value.list [])]) ∧
    ((∃ c ∈ q.children, ∃ i, i < q.items.length ∧
        (alookup sub (keyAt c.id i)).isSome = true) →
      q.get_data sub = [(q.id, Value.list ((List.range q.items.length).map (fun i =>
        Value.obj (q.children.filterMap (keptEntry q.children sub i)))))]) :=
  ⟨fun h => dyn_get_data_none_case q sub hS h,
   fun h => dyn_get_data_some_case q sub hS hInj hT hL h⟩

/-- Counterexample to C1 as stated: at
`TestDynamicListQuestion.test_get_data_unknown_key` no child key is
recognized, so every index is empty; the claim's exception clause then
promises one empty placeholder per index (list length 4), but the code
returns the empty list. -/
theorem C1_counterexample :
    answerListLength (testDynList.get_data [("other", Value.str "other value")])
      "example" = some 0 ∧
    answerListLength (claimDynListData testDynList
      [("other", Value.str "other value")]) "example" = some 4 ∧
    testDynList.get_data [("other", Value.str "other value")] ≠
      claimDynListData testDynList [("other", Value.str "other value")] := by
  refine ⟨rfl, rfl, ?_⟩
  intro h
  have h3 : answerListLength (testDynList.get_data
      [("other", Value.str "other value")]) "example" =
      answerListLength (claimDynListData testDynList
      [("other", Value.str "other value")]) "example" := by rw [h]
  have e1 : answerListLength (testDynList.get_data
      [("other", Value.str "other value")]) "example" = some 0 := rfl
  have e2 : answerListLength (claimDynListData testDynList
      [("other", Value.str "other value")]) "example" = some 4 := rfl
  rw [e1, e2] at h3
  exact absurd h3 (by decide)

/-- Witness for C1 at the third submission of
`TestDynamicListQuestion.test_get_data`. -/
theorem C1_witness :
    testDynList.get_data
      [("evidence-2", Value.str "some evidence"), ("evidence-1", Value.str ""),
       ("evidence-0", Value.str ""), ("yesno-2", Value.bool true),
       ("evidence-3", Value.str "")] =
      [("example", Value.list
        [Value.obj [], Value.obj [],
         Value.obj [("yesno", Value.bool true), ("evidence", Value.str "some evidence")],
         Value.obj []])] := by
  have h := (C1_dynamic_list_get_data testDynList
    [("evidence-2", Value.str "some evidence"), ("evidence-1", Value.str ""),
     ("evidence-0", Value.str ""), ("yesno-2", Value.bool true),
     ("evidence-3", Value.str "")]
    (by decide) (by decide) (by decide) (by decide)).2
    ⟨yesnoChild, List.mem_cons_self _ _, 2, by decide, rfl⟩
  exact h.trans rfl

/-! ## C4: the dynamic-list round trip -/

theorem alookup_eq_none (l : List (String × Value)) (key : String)
    (h : ∀ kv ∈ l, kv.1 ≠ key) : alookup l key = none := by
  induction l with
  | nil => rfl
  | cons kv rest ih =>
    obtain ⟨k1, v1⟩ := kv
    have h1 : k1 ≠ key := h (k1, v1) (List.mem_cons_self _ _)
    rw [alookup, if_neg h1]
    exact ih (fun kv2 hkv2 => h kv2 (List.mem_cons_of_mem _ hkv2))

/-- Unformatting a lone dynamic-list binding enumerates its per-index
blocks. -/
theorem unformat_of_single (q : DynamicList) (L : List Value) :
    q.unformat_data [(q.id, Value.list L)] = (enumIdx 0 L).flatMap blockOf := by
  rw [DynamicList.unformat_data, List.flatMap_cons, List.flatMap_nil,
      List.append_nil, if_pos rfl]

/-- First-match search over the indexed blocks. -/
def lookupBlocks (key : String) : Nat → List Value → Option Value
  | _, [] => none
  | j, m :: rest =>
    match alookup (blockOf (j, m)) key with
    | some v => some v
    | none => lookupBlocks key (j + 1) rest

theorem alookup_enum_flatMap (key : String) :
    ∀ (L : List Value) (j : Nat),
      alookup ((enumIdx j L).flatMap blockOf) key = lookupBlocks key j L := by
  intro L
  induction L with
  | nil => intro j; rfl
  | cons m rest ih =>
    intro j
    rw [show enumIdx j (m :: rest) = (j, m) :: enumIdx (j + 1) rest from rfl]
    rw [List.flatMap_cons, alookup_append, ih (j + 1)]
    rcases hb : alookup (blockOf (j, m)) key with _ | v <;> simp [lookupBlocks, hb]

theorem lookupBlocks_range_none (key : String) (g : Nat → Value) :
    ∀ (m j : Nat),
      (∀ i2, j ≤ i2 → i2 < j + m → alookup (blockOf (i2, g i2)) key = none) →
      lookupBlocks key j ((List.range' j m).map g) = none := by
  intro m
  induction m with
  | zero => intro j _; rfl
  | succ m ih =>
    intro j h
    rw [show List.range' j (m + 1) = j :: List.range' (j + 1) m from rfl,
        List.map_cons]
    have hb := h j (Nat.le_refl j) (by omega)
    rw [lookupBlocks, hb]
    exact ih (j + 1) (fun i2 ha hb2 => h i2 (by omega) (by omega))

/-- When only block `i` can carry the key, the block search reads exactly
block `i`. -/
theorem lookupBlocks_range (key : String) (g : Nat → Value) :
    ∀ (m j i : Nat), j ≤ i → i < j + m →
      (∀ i2, j ≤ i2 → i2 < j + m → i2 ≠ i →
        alookup (blockOf (i2, g i2)) key = none) →
      lookupBlocks key j ((List.range' j m).map g) =
        alookup (blockOf (i, g i)) key := by
  intro m
  induction m with
  | zero =>
    intro j i h1 h2 _
    omega
  | succ m ih =>
    intro j i h1 h2 hOnly
    rw [show List.range' j (m + 1) = j :: List.range' (j + 1) m from rfl,
        List.map_cons]
    by_cases hji : j = i
    · subst hji
      rcases hb : alookup (blockOf (j, g j)) key with _ | v
      · rw [lookupBlocks, hb]
        exact lookupBlocks_range_none key g m (j + 1)
          (fun i2 ha hb2 => hOnly i2 (by omega) (by omega) (by omega))
      · rw [lookupBlocks, hb]
    · have hb : alookup (blockOf (j, g j)) key = none :=
        hOnly j (Nat.le_refl j) (by omega) hji
      rw [lookupBlocks, hb]
      exact ih (j + 1) i (by omega) (by omega)
        (fun i2 ha hb2 hc => hOnly i2 (by omega) (by omega) hc)

/-- A kept entry is keyed by its child's id. -/
theorem keptEntry_fst (cs : List ChildDef) (sub : List (String × Value))
    (i : Nat) (c2 : ChildDef) (e : String × Value)
    (hke : keptEntry cs sub i c2 = some e) : e.1 = c2.id := by
  rw [keptEntry] at hke
  split at hke
  · split at hke
    · have h2 := congrArg (fun o => Option.map Prod.fst o) hke
      simpa using h2.symm
    · cases hke
  · cases hke

/-- Entries of a kept per-index mapping are keyed by sibling child ids. -/
theorem keptEntry_mem_shape (cs : List ChildDef) (sub : List (String × Value))
    (i : Nat) (l : List ChildDef) (e : String × Value)
    (he : e ∈ l.filterMap (keptEntry cs sub i)) : ∃ c2 ∈ l, e.1 = c2.id := by
  rw [List.mem_filterMap] at he
  obtain ⟨c2, hc2, hke⟩ := he
  exact ⟨c2, hc2, keptEntry_fst cs sub i c2 e hke⟩

/-- A shifted per-index mapping of the wrong index never carries an
in-range child key. -/
theorem alookup_shiftEntries_ne (cs : List ChildDef) (sub : List (String × Value))
    (n : Nat) (hInj : KeyInj cs n) (c : ChildDef) (hc : c ∈ cs)
    (i0 i2 : Nat) (hi0 : i0 < n) (hi2 : i2 < n) (hne : i2 ≠ i0)
    (l : List ChildDef) (hl : ∀ c2 ∈ l, c2 ∈ cs) :
    alookup (shiftEntries (l.filterMap (keptEntry cs sub i2)) i2)
      (keyAt c.id i0) = none := by
  apply alookup_eq_none
  intro kv hkv
  rw [shiftEntries, List.mem_map] at hkv
  obtain ⟨e, he, hkve⟩ := hkv
  obtain ⟨c2, hc2, he1⟩ := keptEntry_mem_shape cs sub i2 l e he
  intro hkey
  have h1 : kv.1 = keyAt e.1 i2 := by rw [← hkve]
  rw [h1, he1] at hkey
  have h2 := hInj c2 (hl c2 hc2) c hc i2 hi2 i0 hi0 hkey
  exact hne h2.2

/-- A shifted per-index mapping holds no key of a child id foreign to it. -/
theorem alookup_shiftEntries_notin (cs : List ChildDef) (sub : List (String × Value))
    (n : Nat) (hInj : KeyInj cs n) (c : ChildDef) (hc : c ∈ cs) (i : Nat)
    (hi : i < n) (l : List ChildDef) (hl : ∀ c2 ∈ l, c2 ∈ cs)
    (hne : ∀ c2 ∈ l, c2.id ≠ c.id) :
    alookup (shiftEntries (l.filterMap (keptEntry cs sub i)) i)
      (keyAt c.id i) = none := by
  apply alookup_eq_none
  intro kv hkv
  rw [shiftEntries, List.mem_map] at hkv
  obtain ⟨e, he, hkve⟩ := hkv
  obtain ⟨c2, hc2, he1⟩ := keptEntry_mem_shape cs sub i l e he
  intro hkey
  have h1 : kv.1 = keyAt e.1 i := by rw [← hkve]
  rw [h1, he1] at hkey
  have h2 := hInj c2 (hl c2 hc2) c hc i hi i hi hkey
  exact hne c2 hc2 h2.1

/-- Looking a child's own key up in its shifted per-index mapping yields
exactly the kept value of that child. -/
theorem alookup_shiftEntries_self (cs : List ChildDef) (sub : List (String × Value))
    (n : Nat) (hInj : KeyInj cs n) (c : ChildDef) (hc : c ∈ cs) (i : Nat)
    (hi : i < n) :
    ∀ l : List ChildDef, (∀ c2 ∈ l, c2 ∈ cs) → (l.map ChildDef.id).Nodup →
      alookup (shiftEntries (l.filterMap (keptEntry cs sub i)) i) (keyAt c.id i) =
        match l.find? (fun c2 => c2.id = c.id) with
        | some c2 => (keptEntry cs sub i c2).map Prod.snd
        | none => none := by
  intro l
  induction l with
  | nil => intro _ _; rfl
  | cons c2 rest ih =>
    intro hl hNodup
    have hlr : ∀ c3 ∈ rest, c3 ∈ cs := fun c3 hc3 => hl c3 (List.mem_cons_of_mem c2 hc3)
    have hNodupR : (rest.map ChildDef.id).Nodup := by
      simp only [List.map_cons, List.nodup_cons] at hNodup
      exact hNodup.2
    have hNotMem : c2.id ∉ rest.map ChildDef.id := by
      simp only [List.map_cons, List.nodup_cons] at hNodup
      exact hNodup.1
    have hihr := ih hlr hNodupR
    by_cases hcc : c2.id = c.id
    · have hfind : (c2 :: rest).find? (fun c3 => c3.id = c.id) = some c2 := by
        rw [List.find?_cons, show (decide (c2.id = c.id)) = true from by simp [hcc]]
      have hnone : alookup (shiftEntries (rest.filterMap (keptEntry cs sub i)) i)
          (keyAt c.id i) = none := by
        apply alookup_shiftEntries_notin cs sub n hInj c hc i hi rest hlr
        intro c3 hc3 heq
        exact hNotMem (by rw [hcc, ← heq]; exact List.mem_map_of_mem ChildDef.id hc3)
      rcases hke : keptEntry cs sub i c2 with _ | e
      · simp only [List.filterMap_cons, hke, hfind]
        rw [hnone]
        rfl
      · have he1 : e.1 = c2.id := keptEntry_fst cs sub i c2 e hke
        simp only [List.filterMap_cons, hke, hfind]
        rw [show shiftEntries (e :: rest.filterMap (keptEntry cs sub i)) i =
              (keyAt e.1 i, e.2) :: shiftEntries (rest.filterMap (keptEntry cs sub i)) i
            from rfl]
        rw [alookup, if_pos (by rw [he1, hcc])]
        rfl
    · have hfind : (c2 :: rest).find? (fun c3 => c3.id = c.id) =
          rest.find? (fun c3 => c3.id = c.id) := by
        rw [List.find?_cons, show (decide (c2.id = c.id)) = false from by simp [hcc]]
      rcases hke : keptEntry cs sub i c2 with _ | e
      · simp only [List.filterMap_cons, hke, hfind]
        exact hihr
      · have he1 : e.1 = c2.id := keptEntry_fst cs sub i c2 e hke
        have hkne : keyAt e.1 i ≠ keyAt c.id i := by
          intro heq
          rw [he1] at heq
          exact hcc (hInj c2 (hl c2 (List.mem_cons_self c2 rest)) c hc i hi i hi heq).1
        simp only [List.filterMap_cons, hke, hfind]
        rw [show shiftEntries (e :: rest.filterMap (keptEntry cs sub i)) i =
              (keyAt e.1 i, e.2) :: shiftEntries (rest.filterMap (keptEntry cs sub i)) i
            from rfl]
        rw [alookup, if_neg hkne]
        exact hihr

/-- C4 (amended): `unformat_data` rebuilds the flat `{child_id}-{index}`
submission keys from the structured answer data and passes every
non-dynamic key through unchanged; composed with `get_data` it recovers,
on each in-range child key, exactly the submitted values that are
non-empty AND not cleared by an untaken followup (a non-empty dependent
value whose trigger was not taken is dropped, not recovered), and binds
no other key. -/
theorem C4_unformat_roundtrip (q : DynamicList) (sub : List (String × Value))
    (hS : SingleChildren q.children) (hInj : KeyInj q.children q.items.length)
    (hT : TargetsAreChildren q.children) (hL : LeadsNotTargets q.children)
    (hIds : (q.children.map ChildDef.id).Nodup) :
    (∀ (stored : List (String × Value)) (k : String) (v : Value),
      (k, v) ∈ stored → k ≠ q.id → (k, v) ∈ q.unformat_data stored) ∧
    (∀ c ∈ q.children, ∀ i, i < q.items.length →
      alookup (q.unformat_data (q.get_data sub)) (keyAt c.id i) =
        (keptEntry q.children sub i c).map Prod.snd) ∧
    (∀ key : String, (∀ c ∈ q.children, ∀ i, i < q.items.length →
        key ≠ keyAt c.id i) →
      alookup (q.unformat_data (q.get_data sub)) key = none) := by
  refine ⟨?_, ?_, ?_⟩
  · intro stored k v hmem hk
    rw [DynamicList.unformat_data, List.mem_flatMap]
    refine ⟨(k, v), hmem, ?_⟩
    rw [if_neg hk]
    exact List.mem_cons_self _ _
  · intro c hc i hi
    by_cases habs : ∀ c2 ∈ q.children, ∀ i2, i2 < q.items.length →
        alookup sub (keyAt c2.id i2) = none
    · rw [dyn_get_data_none_case q sub hS habs, unformat_of_single]
      have hkn : keptEntry q.children sub i c = none := by
        rw [keptEntry, habs c hc i hi]
      rw [hkn]
      rfl
    · push_neg at habs
      obtain ⟨c2, hc2, i2, hi2, hne2⟩ := habs
      rw [dyn_get_data_some_case q sub hS hInj hT hL
            ⟨c2, hc2, i2, hi2, Option.isSome_iff_ne_none.mpr hne2⟩,
          unformat_of_single, alookup_enum_flatMap, List.range_eq_range']
      have hself := alookup_shiftEntries_self q.children sub q.items.length hInj
        c hc i hi q.children (fun c3 h3 => h3) hIds
      rw [find_id_of_nodup q.children c hc hIds] at hself
      refine (lookupBlocks_range (keyAt c.id i)
        (fun i3 => Value.obj (q.children.filterMap (keptEntry q.children sub i3)))
        q.items.length 0 i (Nat.zero_le i) (by omega) ?_).trans hself
      intro i3 h0 h3 hnei
      exact alookup_shiftEntries_ne q.children sub q.items.length hInj c hc
        i i3 hi (by omega) hnei q.children (fun c3 h3 => h3)
  · intro key hkey
    by_cases habs : ∀ c2 ∈ q.children, ∀ i2, i2 < q.items.length →
        alookup sub (keyAt c2.id i2) = none
    · rw [dyn_get_data_none_case q sub hS habs, unformat_of_single]
      rfl
    · push_neg at habs
      obtain ⟨c2, hc2, i2, hi2, hne2⟩ := habs
      rw [dyn_get_data_some_case q sub hS hInj hT hL
            ⟨c2, hc2, i2, hi2, Option.isSome_iff_ne_none.mpr hne2⟩,
          unformat_of_single, alookup_enum_flatMap, List.range_eq_range']
      apply lookupBlocks_range_none
      intro i3 h0 h3
      apply alookup_eq_none
      intro kv hkv
      rw [show blockOf (i3, Value.obj (q.children.filterMap (keptEntry q.children sub i3))) =
            shiftEntries (q.children.filterMap (keptEntry q.children sub i3)) i3
          from rfl] at hkv
      rw [shiftEntries, List.mem_map] at hkv
      obtain ⟨e, he, hkve⟩ := hkv
      obtain ⟨c3, hc3, he1⟩ := keptEntry_mem_shape q.children sub i3 q.children e he
      intro heq
      have h1 : kv.1 = keyAt e.1 i3 := by rw [← hkve]
      rw [h1, he1] at heq
      exact hkey c3 hc3 i3 (by omega) heq.symm

/-- Counterexample to C4 as stated: in the first submission of
`TestDynamicListQuestion.test_get_data`, the key `evidence-3` carries the
non-empty value "should be removed", yet the round trip does not recover
it: `get_data` clears it because the `yesno-3` followup trigger is not
taken. -/
theorem C4_counterexample :
    alookup [("yesno-3", Value.bool false),
             ("evidence-3", Value.str "should be removed")] "evidence-3" =
      some (Value.str "should be removed") ∧
    keepVal (Value.str "should be removed") = true ∧
    testDynList.unformat_data (testDynList.get_data
      [("yesno-3", Value.bool false),
       ("evidence-3", Value.str "should be removed")]) =
      [("yesno-3", Value.bool false)] ∧
    alookup (testDynList.unformat_data (testDynList.get_data
      [("yesno-3", Value.bool false),
       ("evidence-3", Value.str "should be removed")])) "evidence-3" = none :=
  ⟨rfl, rfl, rfl, rfl⟩

/-- Witness for C4 at the first submission of
`TestDynamicListQuestion.test_get_data` and the stored data of
`TestDynamicListQuestion.test_unformat_data`. -/
theorem C4_witness :
    alookup (testDynList.unformat_data (testDynList.get_data
      [("yesno-0", Value.bool true), ("evidence-0", Value.str "some evidence"),
       ("evidence-1", Value.str "")])) "evidence-0" =
      some (Value.str "some evidence") ∧
    ("nonDynamicKey", Value.str "data") ∈ testDynList.unformat_data
      [("example", Value.list
         [Value.obj [("yesno", Value.bool true), ("evidence", Value.str "my evidence")],
          Value.obj [], Value.obj [("yesno", Value.bool false)], Value.obj []]),
       ("nonDynamicKey", Value.str "data")] := by
  have h := C4_unformat_roundtrip testDynList
    [("yesno-0", Value.bool true), ("evidence-0", Value.str "some evidence"),
     ("evidence-1", Value.str "")]
    (by decide) (by decide) (by decide) (by decide) (by decide)
  constructor
  · exact (h.2.1 evidenceChild
      (List.mem_cons_of_mem _ (List.mem_cons_self _ _)) 0 (by decide)).trans rfl
  · exact h.1
      [("example", Value.list
         [Value.obj [("yesno", Value.bool true), ("evidence", Value.str "my evidence")],
          Value.obj [], Value.obj [("yesno", Value.bool false)], Value.obj []]),
       ("nonDynamicKey", Value.str "data")]
      "nonDynamicKey" (Value.str "data")
      (List.mem_cons_of_mem _ (List.mem_cons_self _ _)) (by decide)

/-! ## C5: answer_required and followup chains -/

/-- De-fusing the followup-chain walk: the aggregated requirement flag is
true exactly when some child that is not excluded at its own step — with
the exclusion list recomputed over the prefix before it — is itself
required. -/
theorem mqWalk_spec (stored : List (String × Value)) :
    ∀ (cs : List ChildDef) (ex : List String) (acc : Bool),
      (mqWalk stored cs ex acc).2 = true ↔
        acc = true ∨ ∃ j, ∃ h : j < cs.length,
          (exWalk stored (cs.take j) ex).contains (cs.get ⟨j, h⟩).id = false ∧
          childAnswerRequired stored (cs.get ⟨j, h⟩) = true := by
  intro cs
  induction cs with
  | nil =>
    intro ex acc
    rw [mqWalk]
    simp
  | cons c rest ih =>
    intro ex acc
    by_cases hc : ex.contains c.id = true
    · rw [show mqWalk stored (c :: rest) ex acc =
            mqWalk stored rest (ex ++ c.followup.map Prod.fst) acc from by
          rw [mqWalk, if_pos hc]]
      rw [ih (ex ++ c.followup.map Prod.fst) acc]
      have hexw : ∀ j, exWalk stored ((c :: rest).take (j + 1)) ex =
          exWalk stored (rest.take j) (ex ++ c.followup.map Prod.fst) := by
        intro j
        rw [show (c :: rest).take (j + 1) = c :: rest.take j from rfl]
        rw [exWalk, if_pos hc]
      constructor
      · rintro (ha | ⟨j, hj, hp1, hp2⟩)
        · exact Or.inl ha
        · refine Or.inr ⟨j + 1, Nat.succ_lt_succ hj, ?_, ?_⟩
          · rw [hexw j]
            exact hp1
          · exact hp2
      · rintro (ha | ⟨j, hj, hp1, hp2⟩)
        · exact Or.inl ha
        · rcases j with _ | j
          · exfalso
            rw [show exWalk stored ((c :: rest).take 0) ex = ex from rfl,
                show (c :: rest).get ⟨0, hj⟩ = c from rfl, hc] at hp1
            exact Bool.noConfusion hp1
          · refine Or.inr ⟨j, Nat.lt_of_succ_lt_succ hj, ?_, hp2⟩
            rw [← hexw j]
            exact hp1
    · have hcf : ex.contains c.id = false := by
        cases hq : ex.contains c.id
        · rfl
        · exact absurd hq hc
      rw [show mqWalk stored (c :: rest) ex acc =
            mqWalk stored rest (ex ++ untakenTargets stored c)
              (acc || childAnswerRequired stored c) from by
          rw [mqWalk, if_neg hc]]
      rw [ih (ex ++ untakenTargets stored c) (acc || childAnswerRequired stored c)]
      have hexw : ∀ j, exWalk stored ((c :: rest).take (j + 1)) ex =
          exWalk stored (rest.take j) (ex ++ untakenTargets stored c) := by
        intro j
        rw [show (c :: rest).take (j + 1) = c :: rest.take j from rfl]
        rw [exWalk, if_neg hc]
      rw [Bool.or_eq_true]
      constructor
      · rintro ((ha | hcar) | ⟨j, hj, hp1, hp2⟩)
        · exact Or.inl ha
        · refine Or.inr ⟨0, Nat.succ_pos rest.length, ?_, hcar⟩
          rw [show exWalk stored ((c :: rest).take 0) ex = ex from rfl]
          exact hcf
        · refine Or.inr ⟨j + 1, Nat.succ_lt_succ hj, ?_, hp2⟩
          rw [hexw j]
          exact hp1
      · rintro (ha | ⟨j, hj, hp1, hp2⟩)
        · exact Or.inl (Or.inl ha)
        · rcases j with _ | j
          · exact Or.inl (Or.inr hp2)
          · refine Or.inr ⟨j, Nat.lt_of_succ_lt_succ hj, ?_, hp2⟩
            rw [← hexw j]
            exact hp1

/-- C5: a multiquestion's `answer_required` walks the children in order and
entirely excludes every child whose id is, at its own step, in the
followup-exclusion list accumulated over the preceding children (untaken
or transitively excluded followup branches); it is true exactly when the
question is required and some non-excluded child is itself required — so
in particular, when every required child is excluded by an untaken
followup chain, `answer_required` is false. -/
theorem C5_answer_required_followup_chain (q : MultiQ)
    (stored : List (String × Value)) :
    (q.answer_required stored = true ↔
      (q.optional = false ∧ ∃ j, ∃ h : j < q.children.length,
        (exWalk stored (q.children.take j) []).contains
          (q.children.get ⟨j, h⟩).id = false ∧
        childAnswerRequired stored (q.children.get ⟨j, h⟩) = true)) ∧
    ((∀ j, ∀ h : j < q.children.length,
        childAnswerRequired stored (q.children.get ⟨j, h⟩) = true →
        (exWalk stored (q.children.take j) []).contains
          (q.children.get ⟨j, h⟩).id = true) →
      q.answer_required stored = false) := by
  have hmain := mqWalk_spec stored q.children [] false
  constructor
  · rw [MultiQ.answer_required, Bool.and_eq_true, Bool.not_eq_true', hmain]
    constructor
    · rintro ⟨hopt, hfalse | hex⟩
      · exact absurd hfalse (by simp)
      · exact ⟨hopt, hex⟩
    · rintro ⟨hopt, hex⟩
      exact ⟨hopt, Or.inr hex⟩
  · intro hexc
    cases hopt : q.optional
    · rw [MultiQ.answer_required, hopt]
      rw [show (!false) = true from rfl, Bool.true_and]
      cases hw : (mqWalk stored q.children [] false).2
      · rfl
      · exfalso
        rcases hmain.mp hw with h2 | ⟨j, hj, hcontains, hreq⟩
        · exact Bool.noConfusion h2
        · rw [hexc j hj hreq] at hcontains
          exact Bool.noConfusion hcontains
    · rw [MultiQ.answer_required, hopt]
      rfl

/-! ## C6: dependency gating in filter -/

theorem all_false_exists {α : Type} (l : List α) (p : α → Bool)
    (h : l.all p = false) : ∃ x ∈ l, p x = false := by
  induction l with
  | nil =>
    rw [List.all_nil] at h
    exact Bool.noConfusion h
  | cons x rest ih =>
    rw [List.all_cons] at h
    rcases hx : p x with _ | _
    · exact ⟨x, List.mem_cons_self _ _, hx⟩
    · rw [hx, Bool.true_and] at h
      obtain ⟨y, hy, hpy⟩ := ih h
      exact ⟨y, List.mem_cons_of_mem _ hy, hpy⟩

theorem exists_false_all_false {α : Type} (l : List α) (p : α → Bool)
    (h : ∃ x ∈ l, p x = false) : l.all p = false := by
  obtain ⟨x, hx, hpx⟩ := h
  cases hall : l.all p
  · rfl
  · rw [List.all_eq_true] at hall
    rw [hall x hx] at hpx
    exact Bool.noConfusion hpx

/-- With every inspected path present in the context, sequential `depends`
evaluation returns the conjunction of the individual condition checks. -/
theorem evalDepends_of_paths (ctx : List (String × CtxVal)) :
    ∀ conds : List Condition,
      (∀ cond ∈ conds, (ctxLookupPath ctx cond.onPath).isSome = true) →
      evalDepends ctx conds =
        .ok (conds.all (fun cond => conditionHolds ctx cond)) := by
  intro conds
  induction conds with
  | nil => intro _; rfl
  | cons c rest ih =>
    intro h
    have hc := h c (List.mem_cons_self c rest)
    have hrest := fun cond hcond => h cond (List.mem_cons_of_mem c hcond)
    have hch : conditionHolds ctx c =
        match ctxLookupPath ctx c.onPath with
        | some (.str s) => c.being.contains s
        | _ => false := rfl
    rcases hl : ctxLookupPath ctx c.onPath with _ | v
    · rw [hl] at hc
      exact Bool.noConfusion hc
    · rcases v with s | xs | m
      · have hchv : conditionHolds ctx c = c.being.contains s := by
          rw [conditionHolds, hl]
        simp only [evalDepends, hl]
        cases hb : c.being.contains s
        · rw [if_neg (fun hcontra => Bool.noConfusion hcontra)]
          simp only [List.all_cons]
          rw [hchv.trans hb, Bool.false_and]
        · rw [if_pos rfl, ih hrest]
          simp only [List.all_cons]
          rw [hchv.trans hb, Bool.true_and]
      · have hchv : conditionHolds ctx c = false := by
          rw [conditionHolds, hl]
        simp only [evalDepends, hl, List.all_cons]
        rw [hchv, Bool.false_and]
      · have hchv : conditionHolds ctx c = false := by
          rw [conditionHolds, hl]
        simp only [evalDepends, hl, List.all_cons]
        rw [hchv, Bool.false_and]

/-- C6: provided every `depends` path resolves in the context (and the
node's template fields render), `filter(context)` returns `none` exactly
when at least one condition's looked-up value fails the membership test
against its `being` set, and returns a (non-none) node when all conditions
match. -/
theorem C6_depends_gating (q : SimpleQuestion) (ctx : List (String × CtxVal))
    (hPaths : ∀ cond ∈ q.depends, (ctxLookupPath ctx cond.onPath).isSome = true)
    (hName : ∃ x, renderOptField ctx q.name = .ok x)
    (hQuestion : ∃ x, renderOptField ctx q.question = .ok x)
    (hHint : ∃ x, renderOptField ctx q.hint = .ok x)
    (hAdvice : ∃ x, renderOptField ctx q.question_advice = .ok x) :
    (q.filter ctx = .ok none ↔
      ∃ cond ∈ q.depends, conditionHolds ctx cond = false) ∧
    ((∀ cond ∈ q.depends, conditionHolds ctx cond = true) →
      ∃ q2, q.filter ctx = .ok (some q2)) := by
  have heval := evalDepends_of_paths ctx q.depends hPaths
  obtain ⟨n, hn⟩ := hName
  obtain ⟨qq, hq⟩ := hQuestion
  obtain ⟨hh, hhh⟩ := hHint
  obtain ⟨a, ha⟩ := hAdvice
  have hfalse : q.depends.all (fun cond => conditionHolds ctx cond) = false →
      q.filter ctx = .ok none := by
    intro hall
    simp only [SimpleQuestion.filter, heval]
    rw [hall]
  have htrue : q.depends.all (fun cond => conditionHolds ctx cond) = true →
      q.filter ctx = .ok (some { q with name := n, question := qq,
                                        hint := hh, question_advice := a }) := by
    intro hall
    simp only [SimpleQuestion.filter, heval]
    rw [hall]
    simp only [hn, hq, hhh, ha]
  constructor
  · constructor
    · intro hf
      cases hall : q.depends.all (fun cond => conditionHolds ctx cond)
      · exact all_false_exists q.depends _ hall
      · rw [htrue hall] at hf
        simp at hf
    · intro hex
      exact hfalse (exists_false_all_false q.depends _ hex)
  · intro hcond
    exact ⟨_, htrue (List.all_eq_true.mpr (fun cond hc =>
      by rw [hcond cond hc]))⟩

/-- Witness for C6 at the `lot` dependency of
`QuestionTest.test_question_filter_with_dependencies_*`. -/
theorem C6_witness :
    lotQuestion.filter [("lot", CtxVal.str "lot-2")] = .ok none ∧
    (∃ q2, lotQuestion.filter [("lot", CtxVal.str "lot-1")] = .ok (some q2)) := by
  constructor
  · exact (C6_depends_gating lotQuestion [("lot", CtxVal.str "lot-2")]
      (by decide) ⟨none, rfl⟩ ⟨none, rfl⟩ ⟨none, rfl⟩ ⟨none, rfl⟩).1.mpr
      ⟨{ onPath := ["lot"], being := ["lot-1"] }, List.mem_cons_self _ _, rfl⟩
  · exact (C6_depends_gating lotQuestion [("lot", CtxVal.str "lot-1")]
      (by decide) ⟨none, rfl⟩ ⟨none, rfl⟩ ⟨none, rfl⟩ ⟨none, rfl⟩).2
      (by
        intro cond hcond
        rcases List.mem_cons.mp hcond with h | h
        · subst h
          rfl
        · cases h)

/-! ## C7: filter allocates a fresh instance and never mutates the source -/

/-- C7: when filtering node `i` of the instance store succeeds with a new
index `j`, that index is distinct from the source's, it addresses the
freshly filtered instance, and every pre-existing instance — in particular
the source with all its fields and unrendered template sources — is left
exactly as it was. -/
theorem C7_filter_nonmutating (store : List SimpleQuestion) (i : Nat)
    (ctx : List (String × CtxVal)) (st2 : List SimpleQuestion) (j : Nat)
    (hi : i < store.length)
    (h : filterStore store i ctx = .ok (st2, some j)) :
    j ≠ i ∧ j < st2.length ∧
    (∀ k, k < store.length → st2[k]? = store[k]?) ∧
    (∃ src q2, store[i]? = some src ∧ src.filter ctx = .ok (some q2) ∧
      st2[j]? = some q2) := by
  rw [filterStore] at h
  rcases hg : store[i]? with _ | src
  · rw [hg] at h
    cases h
  · simp only [hg] at h
    rcases hf : src.filter ctx with e | o
    · rw [hf] at h
      cases h
    · rcases o with _ | q2
      · rw [hf] at h
        cases h
      · rw [hf] at h
        have hst : st2 = store ++ [q2] ∧ j = store.length := by
          have h2 := h
          injection h2 with h3
          injection h3 with h4 h5
          exact ⟨h4.symm, (Option.some.inj h5).symm⟩
        obtain ⟨hst2, hj⟩ := hst
        subst hst2
        subst hj
        refine ⟨by omega, by simp, ?_, src, q2, rfl, hf, ?_⟩
        · intro k hk
          exact List.getElem?_append_left hk
        · rw [List.getElem?_append_right (Nat.le_refl store.length)]
          simp

/-- Witness for C7: filtering the `lot` question in a one-node store. -/
theorem C7_witness :
    (1 : Nat) ≠ 0 ∧ 1 < 2 ∧
    (∀ k, k < [lotQuestion].length →
      [lotQuestion, lotQuestion][k]? = [lotQuestion][k]?) ∧
    (∃ src q2, [lotQuestion][0]? = some src ∧
      src.filter [("lot", CtxVal.str "lot-1")] = .ok (some q2) ∧
      [lotQuestion, lotQuestion][1]? = some q2) := by
  have h := C7_filter_nonmutating [lotQuestion] 0 [("lot", CtxVal.str "lot-1")]
    [lotQuestion, lotQuestion] 1 (by decide) rfl
  exact ⟨h.1, by decide, h.2.2.1, h.2.2.2⟩

/-! ## C8: template field render sequencing -/

/-- C8: for every template field whose source contains an embedded
expression, accessing the displayed value before rendering fails with the
content template error; the unrendered source is retrievable through
`get_source`, and after a successful `render(context)` the rendered field
yields the output while `get_source` still returns the original source
unchanged. -/
theorem C8_template_two_state (ps : List TemplatePart) (hx : hasExpr ps = true) :
    (TemplateField.unrendered ps).display = .error .contentTemplateError ∧
    (TemplateField.unrendered ps).get_source = sourceString ps ∧
    (∀ ctx out, renderParts ctx ps = .ok out →
      (TemplateField.unrendered ps).render ctx = .ok (.rendered ps out) ∧
      (TemplateField.rendered ps out).get_source = sourceString ps ∧
      (TemplateField.rendered ps out).display = .ok out) := by
  refine ⟨?_, rfl, ?_⟩
  · rw [TemplateField.display, if_pos hx]
  · intro ctx out h
    refine ⟨?_, rfl, rfl⟩
    rw [TemplateField.render, h]

/-- Witness for C8 at the `Name {{ name }}` field of
`QuestionTest.test_question_fields_are_templated*`. -/
theorem C8_witness :
    (TemplateField.unrendered [TemplatePart.lit "Name ", TemplatePart.var "name"]).display =
      .error .contentTemplateError ∧
    (TemplateField.unrendered [TemplatePart.lit "Name ", TemplatePart.var "name"]).get_source =
      "Name \x7b\x7b name \x7d\x7d" ∧
    (TemplateField.unrendered [TemplatePart.lit "Name ", TemplatePart.var "name"]).render
      [("name", CtxVal.str "zero")] =
      .ok (.rendered [TemplatePart.lit "Name ", TemplatePart.var "name"] "Name zero") ∧
    (TemplateField.rendered [TemplatePart.lit "Name ", TemplatePart.var "name"]
      "Name zero").display = .ok "Name zero" := by
  have h := C8_template_two_state [TemplatePart.lit "Name ", TemplatePart.var "name"] rfl
  have h2 := h.2.2 [("name", CtxVal.str "zero")] "Name zero" rfl
  exact ⟨h.1, h.2.1.trans rfl, h2.1, h2.2.2⟩

/-! ## C9: the dynamic-list error resolver -/

theorem flatMap_eq_nil {α β : Type} (l : List α) (f : α → List β)
    (h : ∀ x ∈ l, f x = []) : l.flatMap f = [] := by
  induction l with
  | nil => rfl
  | cons x rest ih =>
    rw [List.flatMap_cons, h x (List.mem_cons_self x rest), List.nil_append]
    exact ih (fun y hy => h y (List.mem_cons_of_mem x hy))

/-- C9: `get_error_messages` ignores entries for foreign ids and resolves
the question's own error records, in their given order, into an ordered
mapping keyed by the computed input name — `{child_id}-{index}` for a
record naming a child field, else the question's own id — whose entries
carry the input name, the resolved message (`answer_required` mapping to
the per-type prompt and any unrecognized code to the generic fallback
instead of failing) and the rendered label of the question the record
addresses. -/
theorem C9_error_messages (q : DynamicList) (rs : List ErrRecord)
    (pre post : List (String × ErrVal))
    (hpre : ∀ kv ∈ pre, kv.1 ≠ q.id) (hpost : ∀ kv ∈ post, kv.1 ≠ q.id) :
    q.get_error_messages (pre ++ (q.id, ErrVal.records rs) :: post) =
      rs.map (fun r => q.resolveRecord r) ∧
    (rs.map (fun r => q.resolveRecord r)).map Prod.fst = rs.map (fun r =>
      match r.field with
      | some f => keyAt f r.index
      | none => q.id) ∧
    (∀ (r : ErrRecord) (f : String), r.field = some f →
      q.resolveRecord r = (keyAt f r.index,
        ⟨keyAt f r.index,
         if r.error = "answer_required" then answerRequiredMessage (q.childType f)
         else genericErrorMessage,
         q.labelAt f r.index⟩)) ∧
    (∀ r : ErrRecord, r.field = none →
      q.resolveRecord r = (q.id,
        ⟨q.id,
         if r.error = "answer_required" then answerRequiredMessage QType.text
         else genericErrorMessage,
         q.questionLabel⟩)) := by
  refine ⟨?_, ?_, ?_, ?_⟩
  · rw [DynamicList.get_error_messages, List.flatMap_append, List.flatMap_cons]
    rw [flatMap_eq_nil pre _ (fun kv hkv => by rw [if_neg (hpre kv hkv)]),
        flatMap_eq_nil post _ (fun kv hkv => by rw [if_neg (hpost kv hkv)])]
    rw [if_pos rfl]
    simp
  · rw [List.map_map]
    apply map_congr_mem
    intro r hr
    rcases hrf : r.field with _ | f <;>
      simp [DynamicList.resolveRecord, hrf]
  · intro r f hf
    simp only [DynamicList.resolveRecord, hf]
    rfl
  · intro r hf
    simp only [DynamicList.resolveRecord, hf]
    rfl

/-- Witness for C9 at the error records of
`TestDynamicListQuestion.test_get_error_messages`, surrounded by an
ignored foreign entry. -/
theorem C9_witness :
    testDynList.get_error_messages
      [("example1", ErrVal.code "answer_required"),
       ("example", ErrVal.records
         [{ field := some "yesno", index := 0, error := "answer_required" },
          { field := some "evidence", index := 0, error := "answer_required" },
          { index := 1, error := "some_unknown_error" }])] =
      [("yesno-0", ⟨"yesno-0", "You need to answer this question.",
                    "First Need-yesno"⟩),
       ("evidence-0", ⟨"evidence-0", "You need to answer this question.",
                       "First Need-evidence"⟩),
       ("example", ⟨"example", "There was a problem with the answer to this question.",
                    "Dynamic list"⟩)] := by
  have h := (C9_error_messages testDynList
    [{ field := some "yesno", index := 0, error := "answer_required" },
     { field := some "evidence", index := 0, error := "answer_required" },
     { index := 1, error := "some_unknown_error" }]
    [("example1", ErrVal.code "answer_required")] []
    (by
      intro kv hkv
      rcases List.mem_cons.mp hkv with h2 | h2
      · subst h2
        decide
      · cases h2)
    (by intro kv hkv; cases hkv)).1
  exact h.trans rfl

end DMContent
